import Mathlib

/-!
# go-bank: account REST service

A shallow embedding of `api.go`, `types.go` and the `Database` interface of
`database.go`, followed by theorems about the authorization middleware, the
path-id validation, the token wrapper and the CRUD handlers.

Conventions of the embedding

* A Go `(T, error)` result is an `Except GoError T`; a lone `error` result is
  an `Option GoError` (`none` is `nil`).  An error is represented by its
  `Error()` text.  A `Database` method that returns a `nil` error returns a
  value, as those of `PostgresDB` do (`scanRowToAccount` always returns an
  account).
* Go `int` and `int64` are 64-bit; they are `Int` here and the 64-bit range is
  enforced where the code parses or decodes a number (`Atoi`, `setInt64`).
* Text that reaches the service through a JSON document, the router or the
  storage is Unicode text (`String`).  The `string` fields of
  `TransferRequest` are Go strings, any sequence of bytes (`GoString`);
  `encoding/json` writes such a string as text, each byte that is not part of
  a valid UTF-8 sequence becoming U+FFFD, and reads text back as its UTF-8
  bytes.
* The mutable objects a handler touches are passed explicitly: the
  `ResponseWriter` and a `World` holding the storage state, the lines printed
  to standard output and a ghost trace of the `Database` methods called.
* Code that is not part of the repository is a parameter: the storage behind
  the `Database` interface, the JWT library (`JWTLib`), the clock and the
  process environment (`Env`).  The clock reads nanoseconds since 1970 and is
  read once per request.
-/

namespace GoBank

/-! ## Values shared by all handlers -/

/-- A Go `error`, represented by its `Error()` text. -/
abbrev GoError := String

/-- An instant, in nanoseconds since the Unix epoch (`time.Time`). -/
abbrev Time := Nat

/-- Seconds since the epoch of an instant: `Time.Unix()`. -/
def Time.Unix (t : Time) : Int := ((t / 1000000000 : Nat) : Int)

/-- Nanoseconds in `n` hours: `n * time.Hour`. -/
def hours (n : Nat) : Nat := n * 3600 * 1000000000

/-- A JSON document as `encoding/json` writes and reads it.  A number literal
without fraction or exponent is `int`; any other number literal is `float`
and keeps its text. -/
inductive JSON where
  | null
  | bool (b : Bool)
  | int (n : Int)
  | float (lit : String)
  | str (s : String)
  | arr (items : List JSON)
  | obj (fields : List (String × JSON))

/-- Smallest value of a Go `int64`. -/
def minInt64 : Int := -9223372036854775808

/-- Largest value of a Go `int64`. -/
def maxInt64 : Int := 9223372036854775807

/-! ## Go strings and UTF-8 -/

/-- A byte. -/
abbrev Byte := Fin 256

/-- A Go `string`: any sequence of bytes. -/
abbrev GoString := List Byte

/-- The byte with the given value (taken modulo 256). -/
def byte (n : Nat) : Byte := ⟨n % 256, Nat.mod_lt n (by decide)⟩

/-- The UTF-8 encoding of a Unicode scalar value (`utf8.AppendRune`). -/
def utf8EncodeRune (c : Char) : List Byte :=
  if c.toNat < 0x80 then [byte c.toNat]
  else if c.toNat < 0x800 then [byte (0xC0 + c.toNat / 64), byte (0x80 + c.toNat % 64)]
  else if c.toNat < 0x10000 then
    [byte (0xE0 + c.toNat / 4096), byte (0x80 + c.toNat / 64 % 64), byte (0x80 + c.toNat % 64)]
  else
    [byte (0xF0 + c.toNat / 262144), byte (0x80 + c.toNat / 4096 % 64),
      byte (0x80 + c.toNat / 64 % 64), byte (0x80 + c.toNat % 64)]

/-- The UTF-8 encoding of a text, rune after rune. -/
def utf8EncodeAll : List Char → List Byte
  | [] => []
  | c :: cs => utf8EncodeRune c ++ utf8EncodeAll cs

/-- A continuation byte: `0x80` to `0xBF`. -/
def isCont (b : Byte) : Bool := decide (0x80 ≤ b.val) && decide (b.val ≤ 0xBF)

/-- The least second byte UTF-8 accepts after the first byte `b0`: `0xA0`
after `0xE0` and `0x90` after `0xF0` (no overlong forms), else `0x80`. -/
def secondLow (b0 : Byte) : Nat :=
  if b0.val = 0xE0 then 0xA0 else if b0.val = 0xF0 then 0x90 else 0x80

/-- The greatest second byte UTF-8 accepts after the first byte `b0`: `0x9F`
after `0xED` (no surrogates) and `0x8F` after `0xF4` (at most U+10FFFF), else
`0xBF`. -/
def secondHigh (b0 : Byte) : Nat :=
  if b0.val = 0xED then 0x9F else if b0.val = 0xF4 then 0x8F else 0xBF

/-- The rune a byte sequence starts with and the bytes after it, as
`utf8.DecodeRune` reads it; `none` when the sequence is empty or does not
start with a valid UTF-8 encoding. -/
def DecodeRune : List Byte → Option (Char × List Byte)
  | [] => none
  | b0 :: rest0 =>
    if b0.val < 0x80 then some (Char.ofNat b0.val, rest0)
    else
      match rest0 with
      | [] => none
      | b1 :: rest1 =>
        if b0.val < 0xC2 then none
        else if decide (secondLow b0 ≤ b1.val) && decide (b1.val ≤ secondHigh b0) then
          if b0.val < 0xE0 then
            some (Char.ofNat ((b0.val - 0xC0) * 64 + (b1.val - 0x80)), rest1)
          else
            match rest1 with
            | [] => none
            | b2 :: rest2 =>
              if isCont b2 then
                if b0.val < 0xF0 then
                  some (Char.ofNat ((b0.val - 0xE0) * 4096 + (b1.val - 0x80) * 64
                    + (b2.val - 0x80)), rest2)
                else
                  match rest2 with
                  | [] => none
                  | b3 :: rest3 =>
                    if isCont b3 && decide (b0.val < 0xF5) then
                      some (Char.ofNat ((b0.val - 0xF0) * 262144 + (b1.val - 0x80) * 4096
                        + (b2.val - 0x80) * 64 + (b3.val - 0x80)), rest3)
                    else none
              else none
        else none

/-- The text `encoding/json` writes for a Go string, reading at most `fuel`
runes: each valid UTF-8 sequence is its rune, each other byte is U+FFFD. -/
def jsonTextAux : Nat → List Byte → List Char
  | 0, _ => []
  | _ + 1, [] => []
  | fuel + 1, b :: bs =>
    match DecodeRune (b :: bs) with
    | some (c, rest) => c :: jsonTextAux fuel rest
    | none => Char.ofNat 0xFFFD :: jsonTextAux fuel bs

/-- The text `encoding/json` writes for a Go string.  Every rune takes at
least one byte, so the length of the string is fuel enough. -/
def GoString.jsonText (s : GoString) : String := ⟨jsonTextAux s.length s⟩

/-- The Go string `encoding/json` stores for a JSON string: the UTF-8 bytes of
its text. -/
def GoString.ofText (s : String) : GoString := utf8EncodeAll s.data

/-! ## types.go -/

/-- The Go struct `TransferRequest`; `To` and `Note` are Go strings and
`Amount` is an `int64`. -/
structure TransferRequest where
  To : GoString
  Amount : { n : Int // minInt64 ≤ n ∧ n ≤ maxInt64 }
  Note : GoString
deriving DecidableEq

/-- The Go struct `CreateAccountRequest`. -/
structure CreateAccountRequest where
  FirstName : String
  LastName : String
  Number : String
deriving DecidableEq

/-- The Go struct `Account`. -/
structure Account where
  ID : Int
  FirstName : String
  LastName : String
  Number : String
  Balance : Int
  CreatedAt : Time
deriving DecidableEq

/-- `NewAccount(firstName, lastName, number)`; `now` is the reading of
`time.Now().UTC()`.  The fields the composite literal leaves out (`ID`,
`Balance`) take Go's zero value. -/
def NewAccount (now : Time) (firstName lastName number : String) : Account :=
  { ID := 0
    FirstName := firstName
    LastName := lastName
    Number := number
    Balance := 0
    CreatedAt := now }

/-! ## strconv.Atoi -/

/-- The two errors of `strconv.Atoi`. -/
inductive NumError where
  | ErrSyntax
  | ErrRange
deriving DecidableEq

/-- An ASCII decimal digit. -/
def isDigit (c : Char) : Bool := decide ('0'.toNat ≤ c.toNat) && decide (c.toNat ≤ '9'.toNat)

/-- The value of a digit character. -/
def digitVal (c : Char) : Nat := c.toNat - '0'.toNat

/-- The decimal value of a run of digits, most significant first, continuing
from the accumulator `acc`; `none` when a character is not a digit. -/
def parseDigits : Nat → List Char → Option Nat
  | acc, [] => some acc
  | acc, c :: cs => if isDigit c then parseDigits (acc * 10 + digitVal c) cs else none

/-- The unsigned part of `Atoi`: at least one character, all of them digits. -/
def parseUnsigned : List Char → Option Nat
  | [] => none
  | cs => parseDigits 0 cs

/-- `strconv.Atoi` on a 64-bit platform: an optional `+` or `-`, then one or
more decimal digits; `ErrSyntax` for any other text, `ErrRange` when the
value does not fit an `int`. -/
def Atoi (s : String) : Except NumError Int :=
  match s.data with
  | [] => .error .ErrSyntax
  | '-' :: cs =>
    match parseUnsigned cs with
    | none => .error .ErrSyntax
    | some n => if (n : Int) ≤ -minInt64 then .ok (-(n : Int)) else .error .ErrRange
  | '+' :: cs =>
    match parseUnsigned cs with
    | none => .error .ErrSyntax
    | some n => if (n : Int) ≤ maxInt64 then .ok (n : Int) else .error .ErrRange
  | cs =>
    match parseUnsigned cs with
    | none => .error .ErrSyntax
    | some n => if (n : Int) ≤ maxInt64 then .ok (n : Int) else .error .ErrRange

/-! ## net/http and gorilla/mux values -/

/-- `textproto.CanonicalMIMEHeaderKey` on a header name made of letters,
digits and hyphens: the first letter and each letter after a hyphen in upper
case, the others in lower case. -/
def canonicalKeyAux : Bool → List Char → List Char
  | _, [] => []
  | up, c :: cs => (if up then c.toUpper else c.toLower) :: canonicalKeyAux (c == '-') cs

/-- The canonical form of a header name. -/
def CanonicalMIMEHeaderKey (k : String) : String := ⟨canonicalKeyAux true k.data⟩

/-- An incoming request as the handlers read it.  `Header` is `http.Header`
(keys in canonical form), `Vars` is `mux.Vars(request)` and `Body` is what
`json.NewDecoder(request.Body)` reads as the next value: a JSON document, or
the decoder's error when the body holds none. -/
structure Request where
  Method : String
  Header : List (String × List String)
  Vars : List (String × String)
  Body : Except GoError JSON

/-- `request.Header.Get(key)`: the first value under the canonical key, `""`
when there is none. -/
def Request.HeaderGet (r : Request) (key : String) : String :=
  match r.Header.lookup (CanonicalMIMEHeaderKey key) with
  | some (v :: _) => v
  | _ => ""

/-- `mux.Vars(request)[name]`: a missing key of a Go map reads as `""`. -/
def Request.Var (r : Request) (name : String) : String :=
  (r.Vars.lookup name).getD ""

/-- The response under construction: the header map, the status line once
`WriteHeader` was called, and the JSON documents written to the body. -/
structure ResponseWriter where
  header : List (String × String)
  status : Option Nat
  body : List JSON

/-- The writer `net/http` hands to a handler: nothing set, nothing written. -/
def ResponseWriter.fresh : ResponseWriter := { header := [], status := none, body := [] }

/-- `writer.Header().Set(key, value)`. -/
def ResponseWriter.HeaderSet (w : ResponseWriter) (key value : String) : ResponseWriter :=
  { w with header := (key, value) :: w.header.filter (fun kv => kv.1 != key) }

/-- `writer.WriteHeader(status)`: only the first call sets the status line. -/
def ResponseWriter.WriteHeader (w : ResponseWriter) (status : Nat) : ResponseWriter :=
  match w.status with
  | none => { w with status := some status }
  | some _ => w

/-- `json.NewEncoder(writer).Encode(value)`: one document appended to the body.
A first write without a status line sends `200`. -/
def ResponseWriter.Encode (w : ResponseWriter) (value : JSON) : ResponseWriter :=
  { w with status := some (w.status.getD 200), body := w.body ++ [value] }

/-- `http.StatusOK`. -/
def StatusOK : Nat := 200

/-- `http.StatusBadRequest`. -/
def StatusBadRequest : Nat := 400

/-- `http.StatusForbidden`. -/
def StatusForbidden : Nat := 403

/-- `http.StatusMethodNotAllowed`. -/
def StatusMethodNotAllowed : Nat := 405

/-- `http.MethodGet`. -/
def MethodGet : String := "GET"

/-- `http.MethodPost`. -/
def MethodPost : String := "POST"

/-- `http.MethodDelete`. -/
def MethodDelete : String := "DELETE"

/-- `WriteJSON(writer, status, value)`.  The values this service encodes
always marshal, so the returned error is `nil`. -/
def WriteJSON (writer : ResponseWriter) (status : Nat) (value : JSON) :
    ResponseWriter × Option GoError :=
  let w1 := writer.HeaderSet "Content-Type" "application/json"
  let w2 := w1.WriteHeader status
  (w2.Encode value, none)

/-! ## encoding/json for the structs of types.go -/

/-- The name `encoding/json` gives the kind of a value in an
`UnmarshalTypeError`. -/
def JSON.kind : JSON → String
  | .null => "null"
  | .bool _ => "bool"
  | .int n => "number " ++ toString n
  | .float lit => "number " ++ lit
  | .str _ => "string"
  | .arr _ => "array"
  | .obj _ => "object"

/-- Text of an `UnmarshalTypeError` for a struct field. -/
def unmarshalTypeError (value struct field typ : String) : GoError :=
  "json: cannot unmarshal " ++ value ++ " into Go struct field " ++ struct ++ "." ++ field ++
    " of type " ++ typ

/-- One character of a key against one character of a field name (lower-case
ASCII letters and underscores) under Unicode simple case folding: the letter
itself, its capital, and for `s` and `k` the long s and the Kelvin sign. -/
def foldEqChar (c f : Char) : Bool :=
  c.toLower == f || (f == 's' && c == Char.ofNat 0x17F) || (f == 'k' && c == Char.ofNat 0x212A)

/-- Case-folded comparison of a key with a field name, character by character. -/
def foldEq : List Char → List Char → Bool
  | [], [] => true
  | c :: cs, f :: fs => foldEqChar c f && foldEq cs fs
  | _, _ => false

/-- Whether an object key selects the struct field tagged `name`: the decoder
takes the field whose name equals the key, or else equals it under case
folding. -/
def matchesField (key name : String) : Bool := foldEq key.data name.data

/-- Decoding a value into a `string` field holding `cur`: a string is stored,
`null` leaves the field, anything else is a type error and leaves the field. -/
def setString (struct field : String) (v : JSON) (cur : String) : String × Option GoError :=
  match v with
  | .str s => (s, none)
  | .null => (cur, none)
  | other =>
    let kind := match other with
      | .int _ => "number"
      | .float _ => "number"
      | o => o.kind
    (cur, some (unmarshalTypeError kind struct field "string"))

/-- Decoding a value into an `int64` field holding `cur`: an integer literal in
range is stored, `null` leaves the field, anything else is a type error. -/
def setInt64 (struct field : String) (v : JSON)
    (cur : { n : Int // minInt64 ≤ n ∧ n ≤ maxInt64 }) :
    { n : Int // minInt64 ≤ n ∧ n ≤ maxInt64 } × Option GoError :=
  match v with
  | .int n =>
    if h : minInt64 ≤ n ∧ n ≤ maxInt64 then (⟨n, h⟩, none)
    else (cur, some (unmarshalTypeError (JSON.kind (.int n)) struct field "int64"))
  | .null => (cur, none)
  | other => (cur, some (unmarshalTypeError other.kind struct field "int64"))

/-- Decoding a value into a `string` field holding the bytes `cur`: as
`setString`, the text of a JSON string being stored as its UTF-8 bytes. -/
def setGoString (struct field : String) (v : JSON) (cur : GoString) :
    GoString × Option GoError :=
  match v with
  | .str s => (GoString.ofText s, none)
  | .null => (cur, none)
  | other =>
    let kind := match other with
      | .int _ => "number"
      | .float _ => "number"
      | o => o.kind
    (cur, some (unmarshalTypeError kind struct field "string"))

/-- The zero value of `TransferRequest`. -/
def TransferRequest.zero : TransferRequest :=
  { To := [], Amount := ⟨0, by decide⟩, Note := [] }

/-- The decoder on one key of an object for a `TransferRequest`.  The state
is the struct so far and the first type error met; a key that selects no
field is skipped. -/
def TransferRequest.setField (acc : TransferRequest × Option GoError) (kv : String × JSON) :
    TransferRequest × Option GoError :=
  if matchesField kv.1 "to" then
    let r := setGoString "TransferRequest" "to" kv.2 acc.1.To
    ({ acc.1 with To := r.1 }, acc.2 <|> r.2)
  else if matchesField kv.1 "amount" then
    let r := setInt64 "TransferRequest" "amount" kv.2 acc.1.Amount
    ({ acc.1 with Amount := r.1 }, acc.2 <|> r.2)
  else if matchesField kv.1 "note" then
    let r := setGoString "TransferRequest" "note" kv.2 acc.1.Note
    ({ acc.1 with Note := r.1 }, acc.2 <|> r.2)
  else acc

/-- Unmarshalling of a JSON document into a zeroed `TransferRequest`. -/
def decodeTransferRequest (doc : JSON) : Except GoError TransferRequest :=
  match doc with
  | .null => .ok TransferRequest.zero
  | .obj fields =>
    match fields.foldl TransferRequest.setField (TransferRequest.zero, none) with
    | (t, none) => .ok t
    | (_, some e) => .error e
  | other =>
    let kind := match other with
      | .int _ => "number"
      | .float _ => "number"
      | o => o.kind
    .error ("json: cannot unmarshal " ++ kind ++ " into Go value of type main.TransferRequest")

/-- Marshalling of a `TransferRequest`, keys from the struct tags. -/
def TransferRequest.toJSON (t : TransferRequest) : JSON :=
  .obj [("to", .str t.To.jsonText), ("amount", .int t.Amount.1), ("note", .str t.Note.jsonText)]

/-- The zero value of `CreateAccountRequest`. -/
def CreateAccountRequest.zero : CreateAccountRequest :=
  { FirstName := "", LastName := "", Number := "" }

/-- The decoder on one key of an object for a `CreateAccountRequest`. -/
def CreateAccountRequest.setField (acc : CreateAccountRequest × Option GoError)
    (kv : String × JSON) : CreateAccountRequest × Option GoError :=
  if matchesField kv.1 "first_name" then
    let r := setString "CreateAccountRequest" "first_name" kv.2 acc.1.FirstName
    ({ acc.1 with FirstName := r.1 }, acc.2 <|> r.2)
  else if matchesField kv.1 "last_name" then
    let r := setString "CreateAccountRequest" "last_name" kv.2 acc.1.LastName
    ({ acc.1 with LastName := r.1 }, acc.2 <|> r.2)
  else if matchesField kv.1 "number" then
    let r := setString "CreateAccountRequest" "number" kv.2 acc.1.Number
    ({ acc.1 with Number := r.1 }, acc.2 <|> r.2)
  else acc

/-- Unmarshalling of a JSON document into a zeroed `CreateAccountRequest`. -/
def decodeCreateAccountRequest (doc : JSON) : Except GoError CreateAccountRequest :=
  match doc with
  | .null => .ok CreateAccountRequest.zero
  | .obj fields =>
    match fields.foldl CreateAccountRequest.setField (CreateAccountRequest.zero, none) with
    | (c, none) => .ok c
    | (_, some e) => .error e
  | other =>
    let kind := match other with
      | .int _ => "number"
      | .float _ => "number"
      | o => o.kind
    .error ("json: cannot unmarshal " ++ kind ++ " into Go value of type main.CreateAccountRequest")

/-- Marshalling of an `Account`, keys from the struct tags; `fmt` renders a
`time.Time` as its JSON string. -/
def Account.toJSON (fmt : Time → String) (a : Account) : JSON :=
  .obj [("id", .int a.ID), ("first_name", .str a.FirstName), ("last_name", .str a.LastName),
    ("number", .str a.Number), ("balance", .int a.Balance), ("created_at", .str (fmt a.CreatedAt))]

/-- The Go struct `ApiError`. -/
structure ApiError where
  Error : String
deriving DecidableEq

/-- Marshalling of an `ApiError`. -/
def ApiError.toJSON (e : ApiError) : JSON := .obj [("error", .str e.Error)]

/-! ## The JWT library and the process environment -/

/-- The type `jwt.MapClaims`: claim names with their decoded JSON values. -/
abbrev MapClaims := List (String × JSON)

/-- The expression `claims[name]`: `none` is the `nil` a missing key reads as. -/
def MapClaims.get (c : MapClaims) (name : String) : Option JSON := c.lookup name

/-- The part of `jwt.Token` the service reads. -/
structure Token where
  Claims : MapClaims
  Valid : Bool

/-- The functions of `github.com/golang-jwt/jwt/v4` the service relies on.
`SignedString claims key` is `jwt.NewWithClaims(jwt.SigningMethodHS256,
claims).SignedString(key)`; `Parse tokenString key now` is `jwt.Parse` with a
key function returning `key`, run when the clock reads `now`.
`ParseUnverified` gives the claims a well-formed token string carries and
`Verify tokenString key` tells whether its signature is the HS256 signature
of its first two segments under `key`. -/
structure JWTLib where
  SignedString : MapClaims → String → Except GoError String
  Parse : String → String → Time → Except GoError Token
  ParseUnverified : String → Option MapClaims
  Verify : String → String → Bool

/-- Modelled from the spec: the behaviour of the JWT library
`github.com/golang-jwt/jwt/v4`, whose source is not part of the repository.
A token signed under a key carries the signed claims and verifies under that
key; `Parse` accepts it under the same key while the clock is before `exp`;
whatever `Parse` accepts is well formed, carries the claims returned,
verifies under the key given and has no `exp` the clock has reached (an
`exp` of zero counts as none); the empty string is not a token. -/
structure JWTLib.Lawful (lib : JWTLib) : Prop where
  signed_claims : ∀ c key ts, lib.SignedString c key = .ok ts → lib.ParseUnverified ts = some c
  signed_verifies : ∀ c key ts, lib.SignedString c key = .ok ts → lib.Verify ts key = true
  parse_accepts : ∀ c key ts (now : Time) (e : Int), lib.ParseUnverified ts = some c →
    lib.Verify ts key = true → MapClaims.get c "exp" = some (.int e) →
    MapClaims.get c "nbf" = none → MapClaims.get c "iat" = none →
    Time.Unix now < e → lib.Parse ts key now = .ok { Claims := c, Valid := true }
  parse_sound : ∀ ts key (now : Time) tok, lib.Parse ts key now = .ok tok →
    lib.ParseUnverified ts = some tok.Claims ∧ lib.Verify ts key = true ∧
    ∀ e : Int, MapClaims.get tok.Claims "exp" = some (.int e) → e ≠ 0 → Time.Unix now < e
  empty_malformed : lib.ParseUnverified "" = none

/-- What the code reads from its process: `os.Getenv("JWT_SECRET")`, the clock
`time.Now()` while the request is handled, the JWT library, and the JSON
rendering of a `time.Time`. -/
structure Env where
  JWT_SECRET : String
  now : Time
  jwt : JWTLib
  formatTime : Time → String

/-- `createJWTToken(account)`. -/
def createJWTToken (env : Env) (account : Account) : Except GoError String :=
  let claims : MapClaims :=
    [("accountNumber", .str account.Number), ("exp", .int (Time.Unix (env.now + hours 12)))]
  let secret := env.JWT_SECRET
  match env.jwt.SignedString claims secret with
  | .error err => .error err
  | .ok tokenString => .ok tokenString

/-- `verifyToken(tokenString)`. -/
def verifyToken (env : Env) (tokenString : String) : Except GoError Token :=
  match env.jwt.Parse tokenString env.JWT_SECRET env.now with
  | .error err => .error err
  | .ok token => if !token.Valid then .error "permission denied" else .ok token

/-! ## database.go: the `Database` interface -/

/-- The interface `Database` over a storage state `σ`: each method takes the
state and returns its result with the state it leaves. -/
structure Database (σ : Type) where
  CreateAccount : Account → σ → Except GoError Account × σ
  UpdateAccount : Account → σ → Option GoError × σ
  DeleteAccount : Int → σ → Option GoError × σ
  GetAccounts : σ → Except GoError (List Account) × σ
  GetAccountByID : Int → σ → Except GoError Account × σ

/-- A ghost record of what ran: a `Database` method with its argument, or a
wrapped handler entered with its writer and request (written by
`recordingHandler` only). -/
inductive Event where
  | CreateAccount (account : Account)
  | UpdateAccount (account : Account)
  | DeleteAccount (id : Int)
  | GetAccounts
  | GetAccountByID (id : Int)
  | invoked (writer : ResponseWriter) (request : Request)

/-- Everything outside the response that a handler can change. -/
structure World (σ : Type) where
  store : σ
  stdout : List String
  trace : List Event

/-- The call `database.GetAccountByID(id)`. -/
def World.GetAccountByID {σ : Type} (db : Database σ) (id : Int) (s : World σ) :
    Except GoError Account × World σ :=
  ((db.GetAccountByID id s.store).1,
    { s with store := (db.GetAccountByID id s.store).2, trace := s.trace ++ [.GetAccountByID id] })

/-- The call `database.GetAccounts()`. -/
def World.GetAccounts {σ : Type} (db : Database σ) (s : World σ) :
    Except GoError (List Account) × World σ :=
  ((db.GetAccounts s.store).1,
    { s with store := (db.GetAccounts s.store).2, trace := s.trace ++ [.GetAccounts] })

/-- The call `database.DeleteAccount(id)`. -/
def World.DeleteAccount {σ : Type} (db : Database σ) (id : Int) (s : World σ) :
    Option GoError × World σ :=
  ((db.DeleteAccount id s.store).1,
    { s with store := (db.DeleteAccount id s.store).2, trace := s.trace ++ [.DeleteAccount id] })

/-- The call `database.CreateAccount(account)`. -/
def World.CreateAccount {σ : Type} (db : Database σ) (account : Account) (s : World σ) :
    Except GoError Account × World σ :=
  ((db.CreateAccount account s.store).1,
    { s with store := (db.CreateAccount account s.store).2,
             trace := s.trace ++ [.CreateAccount account] })

/-- The call `fmt.Println(line)`. -/
def World.Println {σ : Type} (line : String) (s : World σ) : World σ :=
  { s with stdout := s.stdout ++ [line] }

/-! ## api.go -/

/-- What a call of an `apiFunc` leaves: the writer, the world and the error
it returns. -/
structure Result (σ : Type) where
  writer : ResponseWriter
  world : World σ
  err : Option GoError

/-- The type `apiFunc`. -/
abbrev apiFunc (σ : Type) := ResponseWriter → Request → World σ → Result σ

/-- The type `http.HandlerFunc`. -/
abbrev HandlerFunc (σ : Type) := ResponseWriter → Request → World σ → ResponseWriter × World σ

/-- `makeHttpHandleFunc(f)`. -/
def makeHttpHandleFunc {σ : Type} (f : apiFunc σ) : HandlerFunc σ :=
  fun writer request world =>
    match (f writer request world).err with
    | some err =>
      ((WriteJSON (f writer request world).writer StatusBadRequest
          (ApiError.toJSON { Error := err })).1,
        (f writer request world).world)
    | none => ((f writer request world).writer, (f writer request world).world)

/-- The struct `ApiServer`; the two loggers are only used by `Run` to announce
the port. -/
structure ApiServer (σ : Type) where
  listenAddress : String
  database : Database σ

/-- `getID(request)`.  On failure the code also returns the number `Atoi`
gave, which no caller reads. -/
def getID (request : Request) : Except GoError Int :=
  let idStr := request.Var "id"
  match Atoi idStr with
  | .error _ => .error ("invalid ID: " ++ idStr)
  | .ok id => if id < 1 then .error ("invalid ID: " ++ idStr) else .ok id

/-- `(s *ApiServer) handleGetAccount`. -/
def handleGetAccount {σ : Type} (env : Env) (s : ApiServer σ) : apiFunc σ :=
  fun writer _request world =>
    match World.GetAccounts s.database world with
    | (.error err, world1) => { writer := writer, world := world1, err := some err }
    | (.ok accounts, world1) =>
      { writer := (WriteJSON writer StatusOK (.arr (accounts.map (Account.toJSON env.formatTime)))).1
        world := world1
        err := (WriteJSON writer StatusOK (.arr (accounts.map (Account.toJSON env.formatTime)))).2 }

/-- `(s *ApiServer) handleDeleteAccount`. -/
def handleDeleteAccount {σ : Type} (s : ApiServer σ) : apiFunc σ :=
  fun writer request world =>
    match getID request with
    | .error err => { writer := writer, world := world, err := some err }
    | .ok id =>
      match World.DeleteAccount s.database id world with
      | (some err, world1) => { writer := writer, world := world1, err := some err }
      | (none, world1) =>
        { writer := (WriteJSON writer StatusOK (.obj [("deleted", .int id)])).1
          world := world1
          err := (WriteJSON writer StatusOK (.obj [("deleted", .int id)])).2 }

/-- `(s *ApiServer) handleCreateAccount`. -/
def handleCreateAccount {σ : Type} (env : Env) (s : ApiServer σ) : apiFunc σ :=
  fun writer request world =>
    match request.Body.bind decodeCreateAccountRequest with
    | .error err => { writer := writer, world := world, err := some err }
    | .ok createAccReq =>
      let account := NewAccount env.now createAccReq.FirstName createAccReq.LastName
        createAccReq.Number
      match createJWTToken env account with
      | .error err => { writer := writer, world := world, err := some err }
      | .ok tokenString =>
        match World.CreateAccount s.database account (World.Println tokenString world) with
        | (.error err, world1) => { writer := writer, world := world1, err := some err }
        | (.ok inserted, world1) =>
          { writer := (WriteJSON writer StatusOK (Account.toJSON env.formatTime inserted)).1
            world := world1
            err := (WriteJSON writer StatusOK (Account.toJSON env.formatTime inserted)).2 }

/-- `(s *ApiServer) handleTransfer`. -/
def handleTransfer {σ : Type} (_s : ApiServer σ) : apiFunc σ :=
  fun writer request world =>
    match request.Body.bind decodeTransferRequest with
    | .error err => { writer := writer, world := world, err := some err }
    | .ok transerReq =>
      { writer := (WriteJSON writer StatusOK transerReq.toJSON).1
        world := world
        err := (WriteJSON writer StatusOK transerReq.toJSON).2 }

/-- The body of a `405` answer: `map[string]string` with the one key `error`. -/
def methodNotAllowed (method : String) : JSON :=
  .obj [("error", .str ("method " ++ method ++ " not allowed"))]

/-- `(s *ApiServer) handleAccount`. -/
def handleAccount {σ : Type} (env : Env) (s : ApiServer σ) : apiFunc σ :=
  fun writer request world =>
    if request.Method = MethodGet then handleGetAccount env s writer request world
    else if request.Method = MethodPost then handleCreateAccount env s writer request world
    else if request.Method = MethodDelete then handleDeleteAccount s writer request world
    else
      { writer := (WriteJSON (writer.HeaderSet "Allow" "GET, POST, DELETE")
          StatusMethodNotAllowed (methodNotAllowed request.Method)).1
        world := world
        err := (WriteJSON (writer.HeaderSet "Allow" "GET, POST, DELETE")
          StatusMethodNotAllowed (methodNotAllowed request.Method)).2 }

/-- `(s *ApiServer) handleGetAccountByID`. -/
def handleGetAccountByID {σ : Type} (env : Env) (s : ApiServer σ) : apiFunc σ :=
  fun writer request world =>
    if request.Method = MethodGet then
      match getID request with
      | .error err => { writer := writer, world := world, err := some err }
      | .ok id =>
        match World.GetAccountByID s.database id world with
        | (.error err, world1) => { writer := writer, world := world1, err := some err }
        | (.ok account, world1) =>
          { writer := (WriteJSON writer StatusOK (Account.toJSON env.formatTime account)).1
            world := world1
            err := (WriteJSON writer StatusOK (Account.toJSON env.formatTime account)).2 }
    else if request.Method = MethodDelete then handleDeleteAccount s writer request world
    else
      { writer := (WriteJSON (writer.HeaderSet "Allow" "GET, DELETE")
          StatusMethodNotAllowed (methodNotAllowed request.Method)).1
        world := world
        err := (WriteJSON (writer.HeaderSet "Allow" "GET, DELETE")
          StatusMethodNotAllowed (methodNotAllowed request.Method)).2 }

/-- `writePermissionDenied(writter)`. -/
def writePermissionDenied (writter : ResponseWriter) : ResponseWriter :=
  (WriteJSON writter StatusForbidden (ApiError.toJSON { Error := "permission denied" })).1

/-- The test `account.Number != claims["accountNumber"]` of a string against
an interface value: they are equal only when the claim is present and is
that string. -/
def numberDiffers (number : String) (claim : Option JSON) : Bool :=
  match claim with
  | some (.str s) => number != s
  | _ => true

/-- `withJWTAuth(handlerFunc, database)`. -/
def withJWTAuth {σ : Type} (env : Env) (handlerFunc : HandlerFunc σ) (database : Database σ) :
    HandlerFunc σ :=
  fun writter request world =>
    let tokenString := request.HeaderGet "jwt-token"
    match verifyToken env tokenString with
    | .error _ => (writePermissionDenied writter, world)
    | .ok token =>
      match getID request with
      | .error _ => (writePermissionDenied writter, world)
      | .ok userID =>
        match World.GetAccountByID database userID world with
        | (.error _, world1) => (writePermissionDenied writter, world1)
        | (.ok account, world1) =>
          let claims := token.Claims
          if numberDiffers account.Number (claims.get "accountNumber") then
            (writePermissionDenied writter, world1)
          else handlerFunc writter request world1

/-- The handler `Run` registers for the route `/account`. -/
def accountRoute {σ : Type} (env : Env) (s : ApiServer σ) : HandlerFunc σ :=
  makeHttpHandleFunc (handleAccount env s)

/-- The handler `Run` registers for the route `/account/{id}`. -/
def accountIDRoute {σ : Type} (env : Env) (s : ApiServer σ) : HandlerFunc σ :=
  withJWTAuth env (makeHttpHandleFunc (handleGetAccountByID env s)) s.database

/-- The handler `Run` registers for the route `/transfer`. -/
def transferRoute {σ : Type} (s : ApiServer σ) : HandlerFunc σ :=
  makeHttpHandleFunc (handleTransfer s)

/-! ## Observation and test doubles

The definitions below are inputs for the theorems, not code of the service: a
handler that records its invocation, an in-memory `Database`, and a JWT
library with one known token. -/

/-- A wrapped handler that writes nothing and records, in the trace, the
writer and the request it was entered with. -/
def recordingHandler {σ : Type} : HandlerFunc σ :=
  fun writer request world =>
    (writer, { world with trace := world.trace ++ [.invoked writer request] })

/-- The handler entries of a trace, oldest first. -/
def invocations : List Event → List (ResponseWriter × Request)
  | [] => []
  | .invoked w r :: es => (w, r) :: invocations es
  | _ :: es => invocations es

/-- The `accounts` table with the next value of its `id` sequence. -/
structure Table where
  rows : List Account
  nextID : Int

/-- An in-memory `Database` doing to a `Table` what the statements of
`PostgresDB` do to the `accounts` table.  Connection failures and column
limits are not represented. -/
def tableDB : Database Table where
  CreateAccount acc t :=
    if t.rows.any (fun a => a.Number == acc.Number) then
      (.error "pq: duplicate key value violates unique constraint \"accounts_number_key\"",
        { t with nextID := t.nextID + 1 })
    else
      (.ok { acc with ID := t.nextID },
        { rows := t.rows ++ [{ acc with ID := t.nextID }], nextID := t.nextID + 1 })
  UpdateAccount _ t := (none, t)
  DeleteAccount id t := (none, { t with rows := t.rows.filter (fun a => a.ID != id) })
  GetAccounts t := (.ok t.rows, t)
  GetAccountByID id t :=
    match t.rows.find? (fun a => a.ID == id) with
    | some a => (.ok a, t)
    | none => (.error ("accound with ID=" ++ toString id ++ " not found"), t)

/-- The claims of the one token `stubJWT` knows. -/
def stubClaims : MapClaims := [("accountNumber", .str "552122"), ("exp", .int 43300)]

/-- A JWT library with one token: it signs `stubClaims` under the key
`s3cret` as the string `tok-552122` and accepts that string, under that
key, until the clock reaches second 43300. -/
def stubJWT : JWTLib where
  SignedString c key :=
    match c, key with
    | [("accountNumber", .str "552122"), ("exp", .int 43300)], "s3cret" => .ok "tok-552122"
    | _, _ => .error "key is of invalid type"
  Parse ts key now :=
    if ts = "tok-552122" ∧ key = "s3cret" ∧ Time.Unix now < 43300 then
      .ok { Claims := stubClaims, Valid := true }
    else .error "token is invalid"
  ParseUnverified ts := if ts = "tok-552122" then some stubClaims else none
  Verify ts key := ts == "tok-552122" && key == "s3cret"

/-- A process environment around `stubJWT` whose clock reads `now`. -/
def stubEnv (now : Time) : Env :=
  { JWT_SECRET := "s3cret", now := now, jwt := stubJWT, formatTime := fun t => toString t }

/-- Account 1, holder of number 552122. -/
def alice : Account :=
  { ID := 1, FirstName := "Alice", LastName := "A", Number := "552122", Balance := 10,
    CreatedAt := 5 }

/-- Account 2, holder of number 771000. -/
def bob : Account :=
  { ID := 2, FirstName := "Bob", LastName := "B", Number := "771000", Balance := 20,
    CreatedAt := 6 }

/-- A table holding `alice` and `bob`. -/
def twoAccounts : Table := { rows := [alice, bob], nextID := 3 }

/-- A table holding only `bob`. -/
def bobOnly : Table := { rows := [bob], nextID := 3 }

/-- The account `handleCreateAccount` builds for Alice when the clock reads
second 100: no id, no balance. -/
def unassignedAlice : Account :=
  { ID := 0, FirstName := "Alice", LastName := "A", Number := "552122", Balance := 0,
    CreatedAt := 100000000000 }

/-- A create request for Alice, number 552122. -/
def createAliceRequest : Request :=
  { Method := "POST", Header := [], Vars := [],
    Body := .ok (.obj [("first_name", .str "Alice"), ("last_name", .str "A"),
      ("number", .str "552122")]) }

/-- A world around a table, with nothing printed and nothing recorded. -/
def worldOf (t : Table) : World Table := { store := t, stdout := [], trace := [] }

/-- The server over the in-memory table. -/
def tableServer : ApiServer Table := { listenAddress := ":3000", database := tableDB }

/-- A request with the given method, `jwt-token` header and path id, and an
empty body. -/
def requestFor (method token id : String) : Request :=
  { Method := method, Header := [("Jwt-Token", [token])], Vars := [("id", id)],
    Body := .error "EOF" }

/-! ## Statements read from the specification -/

/-- The four checks of the authorization middleware, as the specification
words them: the token of the `jwt-token` header verifies, the path id parses
as a positive integer, the storage lookup of that id succeeds, and the
account found carries the number the token claims. -/
def authChecksPass {σ : Type} (env : Env) (db : Database σ) (r : Request) (s : World σ) : Prop :=
  ∃ (token : Token) (id : Int) (account : Account),
    verifyToken env (r.HeaderGet "jwt-token") = .ok token ∧
    Atoi (r.Var "id") = .ok id ∧ 1 ≤ id ∧
    (db.GetAccountByID id s.store).1 = .ok account ∧
    token.Claims.get "accountNumber" = some (.str account.Number)

/-- The claims the specification gives a token issued for account `a` when
the clock reads `t`: the account's number, and an expiry 12 hours (43200
seconds) after `t`, as a Unix timestamp. -/
def issuedClaims (t : Time) (a : Account) : MapClaims :=
  [("accountNumber", .str a.Number), ("exp", .int (Time.Unix t + 43200))]

/-- The number a run of decimal digits denotes. -/
def decimalValue (digits : List Char) : Nat :=
  digits.foldl (fun acc c => acc * 10 + digitVal c) 0

/-- The text `s` parses as the base-10 integer `n`: it is an optional sign
followed by one or more decimal digits, `n` is the number they denote, and
`n` fits a Go `int`. -/
def parsesAsInt (s : String) (n : Int) : Prop :=
  minInt64 ≤ n ∧ n ≤ maxInt64 ∧
  ∃ digits : List Char, digits ≠ [] ∧ (∀ c ∈ digits, isDigit c = true) ∧
    ((s.data = digits ∧ n = (decimalValue digits : Int)) ∨
     (s.data = '+' :: digits ∧ n = (decimalValue digits : Int)) ∨
     (s.data = '-' :: digits ∧ n = -(decimalValue digits : Int)))

/-- A `TransferRequest` with every byte of `to` and `note` that is not part
of a valid UTF-8 sequence replaced by the bytes of U+FFFD. -/
def TransferRequest.replaceInvalid (t : TransferRequest) : TransferRequest :=
  { To := GoString.ofText t.To.jsonText, Amount := t.Amount,
    Note := GoString.ofText t.Note.jsonText }

/-! ## Lemmas -/

theorem invocations_append (l₁ l₂ : List Event) :
    invocations (l₁ ++ l₂) = invocations l₁ ++ invocations l₂ := by
  induction l₁ with
  | nil => rfl
  | cons e es ih => cases e <;> simp [invocations, ih]

theorem getID_of_atoi_error (r : Request) (e : NumError) (h : Atoi (r.Var "id") = .error e) :
    getID r = .error ("invalid ID: " ++ r.Var "id") := by
  simp only [getID, h]

theorem getID_of_atoi_ok (r : Request) (n : Int) (h : Atoi (r.Var "id") = .ok n) :
    getID r = if n < 1 then .error ("invalid ID: " ++ r.Var "id") else .ok n := by
  simp only [getID, h]

theorem getID_ok_iff (r : Request) (id : Int) :
    getID r = .ok id ↔ Atoi (r.Var "id") = .ok id ∧ 1 ≤ id := by
  cases h : Atoi (r.Var "id") with
  | error e =>
    rw [getID_of_atoi_error r e h]
    constructor
    · intro h'; cases h'
    · rintro ⟨h', _⟩; cases h'
  | ok n =>
    rw [getID_of_atoi_ok r n h]
    by_cases hn : n < 1
    · simp only [hn, if_true]
      constructor
      · intro h'; cases h'
      · rintro ⟨h', h1⟩
        cases h'
        omega
    · simp only [hn, if_false]
      constructor
      · intro h'
        cases h'
        exact ⟨rfl, by omega⟩
      · rintro ⟨h', _⟩
        cases h'
        rfl

theorem getID_error (r : Request) (e : GoError) (h : getID r = .error e) :
    e = "invalid ID: " ++ r.Var "id" := by
  cases h' : Atoi (r.Var "id") with
  | error e' =>
    rw [getID_of_atoi_error r e' h'] at h
    cases h
    rfl
  | ok n =>
    rw [getID_of_atoi_ok r n h'] at h
    by_cases hn : n < 1
    · simp only [hn, if_true] at h
      cases h
      rfl
    · simp only [hn, if_false] at h
      cases h

theorem numberDiffers_eq_false (number : String) (claim : Option JSON) :
    numberDiffers number claim = false ↔ claim = some (.str number) := by
  unfold numberDiffers
  split
  · rename_i s
    simp only [bne_eq_false_iff_eq, Option.some.injEq, JSON.str.injEq]
    exact ⟨fun h => h ▸ rfl, fun h => h ▸ rfl⟩
  · rename_i hne
    constructor
    · intro h; cases h
    · intro h
      exact absurd h (hne number)

/-- The middleware either passes all checks and is the wrapped handler run
after the lookup, or fails one and is the denial, whatever the handler. -/
theorem withJWTAuth_cases {σ : Type} (env : Env) (db : Database σ) (w : ResponseWriter)
    (r : Request) (s : World σ) :
    (authChecksPass env db r s ∧ ∃ id, getID r = .ok id ∧
        ∀ h : HandlerFunc σ,
          withJWTAuth env h db w r s = h w r (World.GetAccountByID db id s).2) ∨
    (¬ authChecksPass env db r s ∧ ∃ s' : World σ,
        (s' = s ∨ ∃ id, getID r = .ok id ∧ s' = (World.GetAccountByID db id s).2) ∧
        ∀ h : HandlerFunc σ, withJWTAuth env h db w r s = (writePermissionDenied w, s')) := by
  cases hv : verifyToken env (r.HeaderGet "jwt-token") with
  | error e =>
    refine Or.inr ⟨?_, s, Or.inl rfl, ?_⟩
    · rintro ⟨token, id, account, h1, _⟩
      rw [hv] at h1
      cases h1
    · intro h
      simp only [withJWTAuth, hv]
  | ok token =>
    cases hg : getID r with
    | error e =>
      refine Or.inr ⟨?_, s, Or.inl rfl, ?_⟩
      · rintro ⟨token', id, account, _, h2, h3, _⟩
        have := (getID_ok_iff r id).2 ⟨h2, h3⟩
        rw [hg] at this
        cases this
      · intro h
        simp only [withJWTAuth, hv, hg]
    | ok id =>
      have hid := (getID_ok_iff r id).1 hg
      cases hl : (db.GetAccountByID id s.store).1 with
      | error e =>
        refine Or.inr ⟨?_, (World.GetAccountByID db id s).2, Or.inr ⟨id, rfl, rfl⟩, ?_⟩
        · rintro ⟨token', id', account, _, h2, _, h4, _⟩
          rw [hid.1] at h2
          cases h2
          rw [hl] at h4
          cases h4
        · intro h
          simp only [withJWTAuth, hv, hg, World.GetAccountByID, hl]
      | ok account =>
        cases hn : numberDiffers account.Number (token.Claims.get "accountNumber") with
        | true =>
          refine Or.inr ⟨?_, (World.GetAccountByID db id s).2, Or.inr ⟨id, rfl, rfl⟩, ?_⟩
          · rintro ⟨token', id', account', h1, h2, _, h4, h5⟩
            rw [hv] at h1
            cases h1
            rw [hid.1] at h2
            cases h2
            rw [hl] at h4
            cases h4
            rw [(numberDiffers_eq_false _ _).2 h5] at hn
            cases hn
          · intro h
            simp only [withJWTAuth, hv, hg, World.GetAccountByID, hl, hn, if_true]
        | false =>
          refine Or.inl ⟨⟨token, id, account, hv, hid.1, hid.2, hl,
            (numberDiffers_eq_false _ _).1 hn⟩, id, rfl, ?_⟩
          intro h
          simp [withJWTAuth, hv, hg, World.GetAccountByID, hl, hn]

theorem invocations_after_lookup {σ : Type} (db : Database σ) (id : Int) (s : World σ) :
    invocations (World.GetAccountByID db id s).2.trace = invocations s.trace := by
  simp [World.GetAccountByID, invocations_append, invocations]

theorem append_singleton_ne_self {α : Type} (l : List α) (a : α) : l ++ [a] ≠ l := by
  intro h
  have := congrArg List.length h
  simp at this

/-! ## C1: the middleware invokes the handler exactly when the four checks pass -/

/-- C1. `withJWTAuth` invokes the wrapped handler if and only if the four
checks pass.  When they pass, the middleware is one call of the handler with
the writer and the request it received, in the world the lookup left.  When
one fails, the response is the denial and the outcome is the same for every
handler.  For the recording handler the trace gains exactly the entry
`(writer, request)` in the first case and no entry in the second. -/
theorem withJWTAuth_invokes_iff_checks {σ : Type} (env : Env) (handlerFunc : HandlerFunc σ)
    (db : Database σ) (w : ResponseWriter) (r : Request) (s : World σ) :
    (authChecksPass env db r s →
      ∃ id, getID r = .ok id ∧
        withJWTAuth env handlerFunc db w r s
          = handlerFunc w r (World.GetAccountByID db id s).2) ∧
    (¬ authChecksPass env db r s →
      (withJWTAuth env handlerFunc db w r s).1 = writePermissionDenied w ∧
      ∀ other : HandlerFunc σ,
        withJWTAuth env other db w r s = withJWTAuth env handlerFunc db w r s) ∧
    (authChecksPass env db r s ↔
      invocations (withJWTAuth env recordingHandler db w r s).2.trace
        = invocations s.trace ++ [(w, r)]) ∧
    (¬ authChecksPass env db r s ↔
      invocations (withJWTAuth env recordingHandler db w r s).2.trace = invocations s.trace) := by
  rcases withJWTAuth_cases env db w r s with ⟨hp, id, hid, hrun⟩ | ⟨hn, s', hs', hrun⟩
  · have hrec : invocations (withJWTAuth env recordingHandler db w r s).2.trace
        = invocations s.trace ++ [(w, r)] := by
      rw [hrun recordingHandler]
      simp [recordingHandler, invocations_append, invocations, invocations_after_lookup]
    refine ⟨fun _ => ⟨id, hid, hrun handlerFunc⟩, fun h => absurd hp h, ⟨fun _ => hrec, fun _ => hp⟩,
      ⟨fun h => absurd hp h, fun h => ?_⟩⟩
    rw [hrec] at h
    exact absurd h (append_singleton_ne_self _ _)
  · have hrec : invocations (withJWTAuth env recordingHandler db w r s).2.trace
        = invocations s.trace := by
      rw [hrun recordingHandler]
      rcases hs' with rfl | ⟨id, _, rfl⟩
      · rfl
      · exact invocations_after_lookup db id s
    refine ⟨fun h => absurd h hn, fun _ => ⟨by rw [hrun handlerFunc], fun other => ?_⟩,
      ⟨fun h => absurd h hn, fun h => ?_⟩, ⟨fun _ => hrec, fun _ => hn⟩⟩
    · rw [hrun other, hrun handlerFunc]
    · rw [hrec] at h
      exact absurd h.symm (append_singleton_ne_self _ _)

/-! ## C2: every rejection is the same response -/

/-- C2. Two rejected requests get the same response, whatever the check
that failed, the storage, the environment or the wrapped handler: on the
writer they were given the responses are equal, and on a fresh writer the
status is 403 and the body is the single JSON document
`{"error":"permission denied"}`. -/
theorem rejections_identical {σ₁ σ₂ : Type} (env₁ env₂ : Env) (h₁ : HandlerFunc σ₁)
    (h₂ : HandlerFunc σ₂) (db₁ : Database σ₁) (db₂ : Database σ₂) (w : ResponseWriter)
    (r₁ r₂ : Request) (s₁ : World σ₁) (s₂ : World σ₂)
    (rej₁ : ¬ authChecksPass env₁ db₁ r₁ s₁) (rej₂ : ¬ authChecksPass env₂ db₂ r₂ s₂) :
    (withJWTAuth env₁ h₁ db₁ w r₁ s₁).1 = (withJWTAuth env₂ h₂ db₂ w r₂ s₂).1 ∧
    (withJWTAuth env₁ h₁ db₁ .fresh r₁ s₁).1.status = some 403 ∧
    (withJWTAuth env₁ h₁ db₁ .fresh r₁ s₁).1.body
      = [.obj [("error", .str "permission denied")]] ∧
    (withJWTAuth env₁ h₁ db₁ .fresh r₁ s₁).1.header
      = [("Content-Type", "application/json")] ∧
    (withJWTAuth env₁ h₁ db₁ .fresh r₁ s₁).1 = (withJWTAuth env₂ h₂ db₂ .fresh r₂ s₂).1 := by
  have key₁ : ∀ w', (withJWTAuth env₁ h₁ db₁ w' r₁ s₁).1 = writePermissionDenied w' := by
    intro w'
    rcases withJWTAuth_cases env₁ db₁ w' r₁ s₁ with ⟨hp, _⟩ | ⟨_, s', _, hrun⟩
    · exact absurd hp rej₁
    · rw [hrun h₁]
  have key₂ : ∀ w', (withJWTAuth env₂ h₂ db₂ w' r₂ s₂).1 = writePermissionDenied w' := by
    intro w'
    rcases withJWTAuth_cases env₂ db₂ w' r₂ s₂ with ⟨hp, _⟩ | ⟨_, s', _, hrun⟩
    · exact absurd hp rej₂
    · rw [hrun h₂]
  refine ⟨by rw [key₁, key₂], ?_, ?_, ?_, by rw [key₁, key₂]⟩
  · rw [key₁]; rfl
  · rw [key₁]; rfl
  · rw [key₁]; rfl

/-- A string that is no token is rejected at the first check. -/
theorem garbage_token_rejected :
    ¬ authChecksPass (stubEnv 100000000000) tableDB (requestFor "GET" "garbage" "1")
        (worldOf twoAccounts) := by
  rintro ⟨t, _, _, h, _⟩
  have h' : (Except.error "token is invalid" : Except GoError Token) = .ok t := h
  cases h'

/-- The token of account 1 is rejected once the clock has passed its `exp`. -/
theorem expired_token_rejected :
    ¬ authChecksPass (stubEnv 50000000000000) tableDB (requestFor "GET" "tok-552122" "1")
        (worldOf twoAccounts) := by
  rintro ⟨t, _, _, h, _⟩
  have h' : (Except.error "token is invalid" : Except GoError Token) = .ok t := h
  cases h'

/-- Witness of C2: a request with a malformed token and a request with an
expired token for an existing account get the same bytes. -/
theorem rejections_identical_witness :
    ¬ authChecksPass (stubEnv 100000000000) tableDB (requestFor "GET" "garbage" "1")
        (worldOf twoAccounts) ∧
    ¬ authChecksPass (stubEnv 50000000000000) tableDB (requestFor "GET" "tok-552122" "1")
        (worldOf twoAccounts) ∧
    (withJWTAuth (stubEnv 100000000000) recordingHandler tableDB .fresh
        (requestFor "GET" "garbage" "1") (worldOf twoAccounts)).1
      = (withJWTAuth (stubEnv 50000000000000) recordingHandler tableDB .fresh
        (requestFor "GET" "tok-552122" "1") (worldOf twoAccounts)).1 ∧
    (withJWTAuth (stubEnv 100000000000) recordingHandler tableDB .fresh
        (requestFor "GET" "garbage" "1") (worldOf twoAccounts)).1.status = some 403 :=
  ⟨garbage_token_rejected, expired_token_rejected,
    (rejections_identical (stubEnv 100000000000) (stubEnv 50000000000000) recordingHandler
      recordingHandler tableDB tableDB .fresh (requestFor "GET" "garbage" "1")
      (requestFor "GET" "tok-552122" "1") (worldOf twoAccounts) (worldOf twoAccounts)
      garbage_token_rejected expired_token_rejected).1,
    (rejections_identical (stubEnv 100000000000) (stubEnv 50000000000000) recordingHandler
      recordingHandler tableDB tableDB .fresh (requestFor "GET" "garbage" "1")
      (requestFor "GET" "tok-552122" "1") (worldOf twoAccounts) (worldOf twoAccounts)
      garbage_token_rejected expired_token_rejected).2.1⟩

/-! ## C7: issuing and verifying a token -/

theorem stubJWT_lawful : stubJWT.Lawful where
  signed_claims := by
    intro c key ts h
    simp only [stubJWT] at h
    split at h
    · cases h
      rfl
    · cases h
  signed_verifies := by
    intro c key ts h
    simp only [stubJWT] at h
    split at h
    · cases h
      rfl
    · cases h
  parse_accepts := by
    intro c key ts now e hc hv he _ _ hlt
    simp only [stubJWT] at hc hv ⊢
    by_cases hts : ts = "tok-552122"
    · simp only [hts, if_true, Option.some.injEq] at hc
      subst hc
      have hkey : key = "s3cret" := by
        simp only [hts, Bool.and_eq_true, beq_iff_eq, true_and] at hv
        exact hv
      have he' : e = 43300 := by
        simp only [stubClaims, MapClaims.get, List.lookup] at he
        have := Option.some.inj he
        exact (JSON.int.inj this).symm
      subst he'
      simp [hts, hkey, hlt]
    · simp only [hts, if_false] at hc
      cases hc
  parse_sound := by
    intro ts key now tok h
    simp only [stubJWT] at h ⊢
    split at h
    · rename_i hcond
      cases h
      refine ⟨by simp [hcond.1], by simp [hcond.1, hcond.2.1], ?_⟩
      intro e he _
      simp only [stubClaims, MapClaims.get, List.lookup] at he
      have := JSON.int.inj (Option.some.inj he)
      rw [← this]
      exact hcond.2.2
    · cases h
  empty_malformed := by
    simp [stubJWT]

theorem verifyToken_ok (env : Env) (ts : String) (tok : Token)
    (h : verifyToken env ts = .ok tok) :
    env.jwt.Parse ts env.JWT_SECRET env.now = .ok tok ∧ tok.Valid = true := by
  unfold verifyToken at h
  cases hp : env.jwt.Parse ts env.JWT_SECRET env.now with
  | error e =>
    rw [hp] at h
    cases h
  | ok t =>
    rw [hp] at h
    cases hv : t.Valid with
    | false =>
      simp only [hv, Bool.not_false, if_true] at h
      cases h
    | true =>
      simp only [hv, Bool.not_true, Bool.false_eq_true, if_false] at h
      cases h
      exact ⟨rfl, hv⟩

theorem verifyToken_of_parse (env : Env) (ts : String) (c : MapClaims)
    (h : env.jwt.Parse ts env.JWT_SECRET env.now = .ok { Claims := c, Valid := true }) :
    verifyToken env ts = .ok { Claims := c, Valid := true } := by
  simp [verifyToken, h]

theorem verifyToken_ok_or_error (env : Env) (ts : String) :
    (∃ tok, verifyToken env ts = .ok tok) ∨ ∃ e, verifyToken env ts = .error e := by
  cases h : verifyToken env ts with
  | ok tok => exact Or.inl ⟨tok, rfl⟩
  | error e => exact Or.inr ⟨e, rfl⟩

theorem unix_add_12h (t : Nat) : Time.Unix (t + hours 12) = Time.Unix t + 43200 := by
  unfold Time.Unix hours
  have h : (t + 12 * 3600 * 1000000000) / 1000000000 = t / 1000000000 + 43200 := by
    have h' : 12 * 3600 * 1000000000 = 43200 * 1000000000 := by norm_num
    rw [h', Nat.add_mul_div_right t 43200 (by norm_num : 0 < 1000000000)]
  rw [h]
  push_cast
  rfl

theorem unix_lt_iff (t : Nat) (x : Int) : Time.Unix t < x ↔ (t : Int) < x * 1000000000 := by
  unfold Time.Unix
  omega

theorem createJWTToken_eq (env : Env) (a : Account) :
    createJWTToken env a = env.jwt.SignedString (issuedClaims env.now a) env.JWT_SECRET := by
  simp only [createJWTToken, issuedClaims, unix_add_12h]
  cases h : env.jwt.SignedString
      [("accountNumber", JSON.str a.Number), ("exp", JSON.int (Time.Unix env.now + 43200))]
      env.JWT_SECRET <;> rfl

theorem issuedClaims_exp (t : Time) (a : Account) :
    MapClaims.get (issuedClaims t a) "exp" = some (.int (Time.Unix t + 43200)) := by
  simp [issuedClaims, MapClaims.get, List.lookup]

theorem issuedClaims_number (t : Time) (a : Account) :
    MapClaims.get (issuedClaims t a) "accountNumber" = some (.str a.Number) := by
  simp [issuedClaims, MapClaims.get, List.lookup]

theorem issuedClaims_exp_ne_zero (t : Nat) : Time.Unix t + 43200 ≠ 0 := by
  unfold Time.Unix
  omega

/-- A token string that `Parse` cannot accept makes `verifyToken` fail. -/
theorem verifyToken_error_of_not_parse (env : Env) (ts : String)
    (h : ∀ tok, env.jwt.Parse ts env.JWT_SECRET env.now ≠ .ok tok) :
    ∃ e, verifyToken env ts = .error e := by
  rcases verifyToken_ok_or_error env ts with ⟨tok, htok⟩ | herr
  · exact absurd (verifyToken_ok env ts tok htok).1 (h tok)
  · exact herr

/-- C7. Under one signing secret and a JWT library that keeps its contract:
`createJWTToken` signs exactly the claims `accountNumber = a.Number` and
`exp = t + 43200` seconds; the token it returns carries those claims, and
`verifyToken` with the same secret returns them at every instant before
`exp` and fails from `exp` on; `verifyToken` fails on a malformed token
string, on the empty string, on a token whose signature does not verify under
the current secret, and on any token whose `exp` has been reached. -/
theorem issue_verify_roundtrip (env : Env) (hlib : env.jwt.Lawful) (a : Account) :
    createJWTToken env a = env.jwt.SignedString (issuedClaims env.now a) env.JWT_SECRET ∧
    (∀ ts, createJWTToken env a = .ok ts →
      env.jwt.ParseUnverified ts = some (issuedClaims env.now a) ∧
      (∀ later : Time, (later : Int) < (Time.Unix env.now + 43200) * 1000000000 →
        verifyToken { env with now := later } ts
          = .ok { Claims := issuedClaims env.now a, Valid := true }) ∧
      (∀ later : Time, (Time.Unix env.now + 43200) * 1000000000 ≤ (later : Int) →
        ∃ e, verifyToken { env with now := later } ts = .error e)) ∧
    (∀ ts, env.jwt.ParseUnverified ts = none → ∃ e, verifyToken env ts = .error e) ∧
    (∃ e, verifyToken env "" = .error e) ∧
    (∀ ts, env.jwt.Verify ts env.JWT_SECRET = false → ∃ e, verifyToken env ts = .error e) ∧
    (∀ ts c (e : Int), env.jwt.ParseUnverified ts = some c →
      MapClaims.get c "exp" = some (.int e) → e ≠ 0 → e ≤ Time.Unix env.now →
      ∃ err, verifyToken env ts = .error err) := by
  have hmal : ∀ ts, env.jwt.ParseUnverified ts = none → ∃ e, verifyToken env ts = .error e := by
    intro ts hts
    apply verifyToken_error_of_not_parse
    intro tok hp
    rw [(hlib.parse_sound ts _ _ tok hp).1] at hts
    cases hts
  refine ⟨createJWTToken_eq env a, ?_, hmal, hmal "" hlib.empty_malformed, ?_, ?_⟩
  · intro ts hts
    rw [createJWTToken_eq] at hts
    have hclaims := hlib.signed_claims _ _ _ hts
    refine ⟨hclaims, ?_, ?_⟩
    · intro later hlater
      apply verifyToken_of_parse
      exact hlib.parse_accepts _ _ ts later _ hclaims (hlib.signed_verifies _ _ _ hts)
        (issuedClaims_exp env.now a) (by simp [issuedClaims, MapClaims.get, List.lookup])
        (by simp [issuedClaims, MapClaims.get, List.lookup])
        ((unix_lt_iff later _).2 hlater)
    · intro later hlater
      apply verifyToken_error_of_not_parse
      intro tok hp
      have hs := hlib.parse_sound ts _ _ tok hp
      have heq : tok.Claims = issuedClaims env.now a := by
        have h1 := hs.1
        rw [hclaims] at h1
        exact (Option.some.inj h1).symm
      have hlt := hs.2.2 (Time.Unix env.now + 43200)
        (by rw [heq]; exact issuedClaims_exp env.now a) (issuedClaims_exp_ne_zero env.now)
      have := (unix_lt_iff later _).1 hlt
      omega
  · intro ts hv
    apply verifyToken_error_of_not_parse
    intro tok hp
    rw [(hlib.parse_sound ts _ _ tok hp).2.1] at hv
    cases hv
  · intro ts c e hc he hne hle
    apply verifyToken_error_of_not_parse
    intro tok hp
    have hs := hlib.parse_sound ts _ _ tok hp
    have heq : tok.Claims = c := by
      have h1 := hs.1
      rw [hc] at h1
      exact (Option.some.inj h1).symm
    have hlt := hs.2.2 e (by rw [heq]; exact he) hne
    omega

/-- Witness of C7: the stub library keeps the contract, and the token issued
for account 1 at second 100 is accepted at second 43299. -/
theorem issue_verify_roundtrip_witness :
    stubJWT.Lawful ∧
    createJWTToken (stubEnv 100000000000) alice = .ok "tok-552122" ∧
    verifyToken (stubEnv 43299000000000) "tok-552122"
      = .ok { Claims := issuedClaims 100000000000 alice, Valid := true } :=
  ⟨stubJWT_lawful, rfl,
    ((issue_verify_roundtrip (stubEnv 100000000000) stubJWT_lawful alice).2.1 "tok-552122"
      rfl).2.1 43299000000000 (by decide)⟩

/-- A request that fails a check gets the denial. -/
theorem withJWTAuth_outcome {σ : Type} (env : Env) (handlerFunc : HandlerFunc σ)
    (db : Database σ) (w : ResponseWriter) (r : Request) (s : World σ) :
    (authChecksPass env db r s → ∃ id, getID r = .ok id ∧
      withJWTAuth env handlerFunc db w r s = handlerFunc w r (World.GetAccountByID db id s).2) ∧
    (¬ authChecksPass env db r s →
      (withJWTAuth env handlerFunc db w r s).1 = writePermissionDenied w) := by
  rcases withJWTAuth_cases env db w r s with ⟨hp, id, hid, hrun⟩ | ⟨hn, s', _, hrun⟩
  · exact ⟨fun _ => ⟨id, hid, hrun handlerFunc⟩, fun h => absurd hp h⟩
  · exact ⟨fun h => absurd h hn, fun _ => by rw [hrun handlerFunc]⟩

/-- A token issued at `issuedAt` verifies under the same secret at every
instant before its `exp`. -/
theorem issue_verify_aux (env : Env) (hlib : env.jwt.Lawful) (issuedAt : Time) (a : Account)
    (ts : String) (hissue : createJWTToken { env with now := issuedAt } a = .ok ts)
    (later : Time) (hlater : (later : Int) < (Time.Unix issuedAt + 43200) * 1000000000) :
    verifyToken { env with now := later } ts
      = .ok { Claims := issuedClaims issuedAt a, Valid := true } := by
  rw [createJWTToken_eq] at hissue
  have hclaims := hlib.signed_claims _ _ _ hissue
  apply verifyToken_of_parse
  exact hlib.parse_accepts _ _ ts later _ hclaims (hlib.signed_verifies _ _ _ hissue)
    (issuedClaims_exp issuedAt a) (by simp [issuedClaims, MapClaims.get, List.lookup])
    (by simp [issuedClaims, MapClaims.get, List.lookup])
    ((unix_lt_iff later _).2 hlater)

/-! ## C3: a token opens only the account it was issued for -/

/-- Whatever `verifyToken` accepts of a token issued for account `a` carries
the number of `a`. -/
theorem verified_issued_token_number (env : Env) (hlib : env.jwt.Lawful) (issuedAt : Time)
    (a : Account) (ts : String) (hissue : createJWTToken { env with now := issuedAt } a = .ok ts)
    (tok : Token) (hv : verifyToken env ts = .ok tok) :
    tok.Claims = issuedClaims issuedAt a := by
  rw [createJWTToken_eq] at hissue
  have hclaims := hlib.signed_claims _ _ _ hissue
  have hs := hlib.parse_sound ts _ _ tok (verifyToken_ok env ts tok hv).1
  have h1 := hs.1
  rw [hclaims] at h1
  exact (Option.some.inj h1).symm

/-- C3. A token issued for the account with number `N = a.Number`, presented
in the `jwt-token` header, is denied on every request that does not address
an account whose number is `N`: if the account stored under the path id, when
there is one, has another number, the response is the 403 denial and the
wrapped handler is not invoked.  On a request addressing an account whose
number is `N`, presented before `exp`, the handler is invoked. -/
theorem issued_token_only_for_its_account {σ : Type} (env : Env) (hlib : env.jwt.Lawful)
    (issuedAt : Time) (a : Account) (ts : String)
    (hissue : createJWTToken { env with now := issuedAt } a = .ok ts)
    (db : Database σ) (handlerFunc : HandlerFunc σ) (w : ResponseWriter) (r : Request)
    (s : World σ) (htoken : r.HeaderGet "jwt-token" = ts) :
    ((∀ id b, getID r = .ok id → (db.GetAccountByID id s.store).1 = .ok b →
        b.Number ≠ a.Number) →
      (withJWTAuth env handlerFunc db w r s).1 = writePermissionDenied w ∧
      (withJWTAuth env handlerFunc db .fresh r s).1.status = some 403 ∧
      invocations (withJWTAuth env recordingHandler db w r s).2.trace = invocations s.trace) ∧
    (∀ id b, getID r = .ok id → (db.GetAccountByID id s.store).1 = .ok b →
      b.Number = a.Number → (env.now : Int) < (Time.Unix issuedAt + 43200) * 1000000000 →
      withJWTAuth env handlerFunc db w r s
        = handlerFunc w r (World.GetAccountByID db id s).2) := by
  constructor
  · intro hother
    have hrej : ¬ authChecksPass env db r s := by
      rintro ⟨tok, id, account, h1, h2, h3, h4, h5⟩
      rw [htoken] at h1
      have hc := verified_issued_token_number env hlib issuedAt a ts hissue tok h1
      rw [hc, issuedClaims_number] at h5
      have hnum : a.Number = account.Number := JSON.str.inj (Option.some.inj h5)
      exact hother id account ((getID_ok_iff r id).2 ⟨h2, h3⟩) h4 hnum.symm
    have hden : ∀ w', (withJWTAuth env handlerFunc db w' r s).1 = writePermissionDenied w' :=
      fun w' => ((withJWTAuth_outcome env handlerFunc db w' r s).2 hrej)
    refine ⟨hden w, by rw [hden]; rfl, ?_⟩
    rcases withJWTAuth_cases env db w r s with ⟨hp, _⟩ | ⟨_, s', hs', hrun⟩
    · exact absurd hp hrej
    · rw [hrun recordingHandler]
      rcases hs' with rfl | ⟨id, _, rfl⟩
      · rfl
      · exact invocations_after_lookup db id s
  · intro id b hid hb hnum hwin
    have hpass : authChecksPass env db r s := by
      have hv := ((issue_verify_aux env hlib issuedAt a ts hissue) env.now hwin)
      refine ⟨{ Claims := issuedClaims issuedAt a, Valid := true }, id, b, ?_,
        ((getID_ok_iff r id).1 hid).1, ((getID_ok_iff r id).1 hid).2, hb, ?_⟩
      · rw [htoken]; exact hv
      · rw [hnum]; exact issuedClaims_number issuedAt a
    rcases withJWTAuth_cases env db w r s with ⟨_, id', hid', hrun⟩ | ⟨hn, _⟩
    · rw [hid] at hid'
      cases hid'
      exact hrun handlerFunc
    · exact absurd hpass hn

/-- Witness of C3: the token issued for account 1 (number 552122), presented
100 seconds later on the route of account 2, which exists and has number
771000, gets 403 and the handler is not entered. -/
theorem issued_token_only_for_its_account_witness :
    createJWTToken (stubEnv 100000000000) alice = .ok "tok-552122" ∧
    (tableDB.GetAccountByID 2 twoAccounts).1 = .ok bob ∧
    (withJWTAuth (stubEnv 200000000000) recordingHandler tableDB .fresh
      (requestFor "GET" "tok-552122" "2") (worldOf twoAccounts)).1.status = some 403 ∧
    invocations (withJWTAuth (stubEnv 200000000000) recordingHandler tableDB .fresh
      (requestFor "GET" "tok-552122" "2") (worldOf twoAccounts)).2.trace = [] :=
  have hother : ∀ id b, getID (requestFor "GET" "tok-552122" "2") = .ok id →
      (tableDB.GetAccountByID id (worldOf twoAccounts).store).1 = .ok b →
      b.Number ≠ alice.Number := by
    intro id b hid hb
    have h2 : (Except.ok 2 : Except GoError Int) = .ok id := hid
    cases h2
    have hbob : (Except.ok bob : Except GoError Account) = .ok b := hb
    cases hbob
    decide
  ⟨rfl, rfl,
    ((issued_token_only_for_its_account (stubEnv 200000000000) stubJWT_lawful 100000000000
      alice "tok-552122" rfl tableDB recordingHandler .fresh
      (requestFor "GET" "tok-552122" "2") (worldOf twoAccounts) rfl).1 hother).2.1,
    ((issued_token_only_for_its_account (stubEnv 200000000000) stubJWT_lawful 100000000000
      alice "tok-552122" rfl tableDB recordingHandler .fresh
      (requestFor "GET" "tok-552122" "2") (worldOf twoAccounts) rfl).1 hother).2.2⟩

/-! ## C4: fetching a deleted account -/

/-- After `DELETE FROM accounts WHERE id = x` the table has no row with id
`x`, so the lookup of `x` reports that it was not found. -/
theorem tableDB_lookup_after_delete (t : Table) (x : Int) :
    (tableDB.DeleteAccount x t).1 = none ∧
    (tableDB.GetAccountByID x (tableDB.DeleteAccount x t).2).1
      = .error ("accound with ID=" ++ toString x ++ " not found") := by
  refine ⟨rfl, ?_⟩
  have hnone : (List.filter (fun a : Account => a.ID != x) t.rows).find? (fun a => a.ID == x)
      = none := by
    rw [List.find?_eq_none]
    intro a ha
    have := (List.mem_filter.1 ha).2
    simpa using this
  simp only [tableDB, hnone]

/-- C4, as the code behaves: with account 1 deleted, `GET /account/1`
carrying the still valid token of account 1 is answered 403 with the denial
body, not 400, although the lookup failed with a not-found error. -/
theorem fetch_after_delete_is_forbidden :
    (tableDB.GetAccountByID 1 (tableDB.DeleteAccount 1 twoAccounts).2).1
      = .error "accound with ID=1 not found" ∧
    (accountIDRoute (stubEnv 100000000000) tableServer .fresh
      (requestFor "GET" "tok-552122" "1")
      (World.DeleteAccount tableDB 1 (worldOf twoAccounts)).2).1.status = some 403 ∧
    (accountIDRoute (stubEnv 100000000000) tableServer .fresh
      (requestFor "GET" "tok-552122" "1")
      (World.DeleteAccount tableDB 1 (worldOf twoAccounts)).2).1.status ≠ some 400 ∧
    (accountIDRoute (stubEnv 100000000000) tableServer .fresh
      (requestFor "GET" "tok-552122" "1")
      (World.DeleteAccount tableDB 1 (worldOf twoAccounts)).2).1.body
      = [.obj [("error", .str "permission denied")]] :=
  ⟨rfl, rfl, by decide, rfl⟩

/-- C4 amended. Deleting account id `x` and then fetching id `x` through
`GET /account/{id}`, in a storage whose lookup finds nothing under a deleted
id, is answered by the authorization middleware, whatever token is
presented: the response is the 403 denial `{"error":"permission denied"}`,
the status is never 400, and the protected handler is not entered. -/
theorem fetch_after_delete_denied {σ : Type} (env : Env) (srv : ApiServer σ) (x : Int)
    (s₀ : World σ)
    (hgone : ∃ e, (srv.database.GetAccountByID x
      (srv.database.DeleteAccount x s₀.store).2).1 = .error e)
    (w : ResponseWriter) (r : Request) (hid : getID r = .ok x) :
    (accountIDRoute env srv w r (World.DeleteAccount srv.database x s₀).2).1
      = writePermissionDenied w ∧
    (accountIDRoute env srv .fresh r (World.DeleteAccount srv.database x s₀).2).1.status
      = some 403 ∧
    (accountIDRoute env srv .fresh r (World.DeleteAccount srv.database x s₀).2).1.status
      ≠ some 400 ∧
    (accountIDRoute env srv .fresh r (World.DeleteAccount srv.database x s₀).2).1.body
      = [.obj [("error", .str "permission denied")]] ∧
    invocations (withJWTAuth env recordingHandler srv.database w r
      (World.DeleteAccount srv.database x s₀).2).2.trace = invocations s₀.trace := by
  have hrej : ¬ authChecksPass env srv.database r (World.DeleteAccount srv.database x s₀).2 := by
    rintro ⟨tok, id, account, _, h2, h3, h4, _⟩
    have hid' := (getID_ok_iff r id).2 ⟨h2, h3⟩
    rw [hid] at hid'
    cases hid'
    obtain ⟨e, he⟩ := hgone
    have h4' : (srv.database.GetAccountByID x (srv.database.DeleteAccount x s₀.store).2).1
        = .ok account := h4
    rw [he] at h4'
    cases h4'
  have hden : ∀ w', (accountIDRoute env srv w' r (World.DeleteAccount srv.database x s₀).2).1
      = writePermissionDenied w' :=
    fun w' => (withJWTAuth_outcome env _ srv.database w' r _).2 hrej
  refine ⟨hden w, by rw [hden]; rfl, by rw [hden]; decide, by rw [hden]; rfl, ?_⟩
  rcases withJWTAuth_cases env srv.database w r (World.DeleteAccount srv.database x s₀).2
    with ⟨hp, _⟩ | ⟨_, s', hs', hrun⟩
  · exact absurd hp hrej
  · rw [hrun recordingHandler]
    rcases hs' with rfl | ⟨id, _, rfl⟩
    · simp [World.DeleteAccount, invocations_append, invocations]
    · simp [World.GetAccountByID, World.DeleteAccount, invocations_append, invocations]

/-- Witness of C4 amended: the in-memory table after deleting account 1, and
a `GET /account/1` carrying the valid token of account 1. -/
theorem fetch_after_delete_denied_witness :
    (tableDB.DeleteAccount 1 twoAccounts).1 = none ∧
    getID (requestFor "GET" "tok-552122" "1") = .ok 1 ∧
    (accountIDRoute (stubEnv 100000000000) tableServer .fresh
      (requestFor "GET" "tok-552122" "1")
      (World.DeleteAccount tableDB 1 (worldOf twoAccounts)).2).1.status = some 403 :=
  ⟨rfl, rfl,
    (fetch_after_delete_denied (stubEnv 100000000000) tableServer 1 (worldOf twoAccounts)
      ⟨_, (tableDB_lookup_after_delete twoAccounts 1).2⟩ .fresh
      (requestFor "GET" "tok-552122" "1") rfl).2.1⟩

/-! ## C5: `DELETE /account` -/

theorem atoi_empty : Atoi "" = .error .ErrSyntax := rfl

/-- C5, as the code behaves: a `DELETE` request on the route `/account`,
which has no id, is answered 400 with `{"error":"invalid ID: "}`, not 405;
no `Database` method is called. -/
theorem delete_without_id_is_bad_request :
    (accountRoute (stubEnv 100000000000) tableServer .fresh
      { Method := "DELETE", Header := [], Vars := [], Body := .error "EOF" }
      (worldOf twoAccounts)).1.status = some 400 ∧
    (accountRoute (stubEnv 100000000000) tableServer .fresh
      { Method := "DELETE", Header := [], Vars := [], Body := .error "EOF" }
      (worldOf twoAccounts)).1.status ≠ some 405 ∧
    (accountRoute (stubEnv 100000000000) tableServer .fresh
      { Method := "DELETE", Header := [], Vars := [], Body := .error "EOF" }
      (worldOf twoAccounts)).1.body = [.obj [("error", .str "invalid ID: ")]] ∧
    (accountRoute (stubEnv 100000000000) tableServer .fresh
      { Method := "DELETE", Header := [], Vars := [], Body := .error "EOF" }
      (worldOf twoAccounts)).2.trace = [] :=
  ⟨rfl, by decide, rfl, rfl⟩

/-- C5 amended. A `DELETE` request to the path `/account` (no id segment) is
passed by `handleAccount` to `handleDeleteAccount`, which rejects the missing
id: the response is HTTP 400 with `{"error":"invalid ID: "}`, and the storage
delete operation is not called (the world, trace included, is unchanged). -/
theorem delete_without_id_rejected {σ : Type} (env : Env) (srv : ApiServer σ)
    (w : ResponseWriter) (r : Request) (s : World σ) (hmethod : r.Method = MethodDelete)
    (hnoid : r.Vars.lookup "id" = none) :
    handleAccount env srv w r s = { writer := w, world := s, err := some "invalid ID: " } ∧
    accountRoute env srv w r s
      = ((WriteJSON w StatusBadRequest (ApiError.toJSON { Error := "invalid ID: " })).1, s) ∧
    (accountRoute env srv .fresh r s).1.status = some 400 ∧
    (accountRoute env srv .fresh r s).1.body = [.obj [("error", .str "invalid ID: ")]] ∧
    (accountRoute env srv w r s).2.trace = s.trace := by
  have hvar : r.Var "id" = "" := by simp [Request.Var, hnoid]
  have hget : getID r = .error "invalid ID: " := by
    have := getID_of_atoi_error r .ErrSyntax (by rw [hvar]; exact atoi_empty)
    rw [this, hvar]
    rfl
  have hacc : ∀ w', handleAccount env srv w' r s
      = { writer := w', world := s, err := some "invalid ID: " } := by
    intro w'
    have hdel' : handleDeleteAccount srv w' r s
        = { writer := w', world := s, err := some "invalid ID: " } := by
      simp only [handleDeleteAccount, hget]
    have h1 : ¬ (MethodDelete = MethodGet) := by decide
    have h2 : ¬ (MethodDelete = MethodPost) := by decide
    simp only [handleAccount, hmethod, h1, h2, if_true, if_false, hdel']
  have hroute : ∀ w', accountRoute env srv w' r s
      = ((WriteJSON w' StatusBadRequest (ApiError.toJSON { Error := "invalid ID: " })).1, s) := by
    intro w'
    simp only [accountRoute, makeHttpHandleFunc, hacc w']
  refine ⟨hacc w, hroute w, by rw [hroute]; rfl, by rw [hroute]; rfl, by rw [hroute]⟩

/-- Witness of C5 amended: a `DELETE` request without path variables on the
in-memory table. -/
theorem delete_without_id_rejected_witness :
    (accountRoute (stubEnv 100000000000) tableServer .fresh
      { Method := "DELETE", Header := [], Vars := [], Body := .error "EOF" }
      (worldOf twoAccounts)).1.status = some 400 ∧
    (accountRoute (stubEnv 100000000000) tableServer .fresh
      { Method := "DELETE", Header := [], Vars := [], Body := .error "EOF" }
      (worldOf twoAccounts)).2.trace = [] :=
  ⟨(delete_without_id_rejected (stubEnv 100000000000) tableServer .fresh
      { Method := "DELETE", Header := [], Vars := [], Body := .error "EOF" }
      (worldOf twoAccounts) rfl rfl).2.2.1,
    (delete_without_id_rejected (stubEnv 100000000000) tableServer .fresh
      { Method := "DELETE", Header := [], Vars := [], Body := .error "EOF" }
      (worldOf twoAccounts) rfl rfl).2.2.2.2⟩

/-! ## C6: validation of the path id -/

theorem parseDigits_eq_some (cs : List Char) : ∀ (acc v : Nat),
    parseDigits acc cs = some v ↔
      (∀ c ∈ cs, isDigit c = true) ∧ v = cs.foldl (fun a c => a * 10 + digitVal c) acc := by
  induction cs with
  | nil =>
    intro acc v
    simp only [parseDigits, List.foldl_nil, Option.some.injEq, List.not_mem_nil, false_implies,
      implies_true, true_and]
    exact eq_comm
  | cons c cs ih =>
    intro acc v
    by_cases hc : isDigit c = true
    · simp only [parseDigits, hc, if_true, ih, List.foldl_cons, List.mem_cons, forall_eq_or_imp,
        true_and]
    · constructor
      · intro h
        simp only [parseDigits, hc, if_false] at h
        cases h
      · rintro ⟨h, _⟩
        exact absurd (h c (List.mem_cons_self _ _)) hc

theorem parseUnsigned_eq_some (cs : List Char) (v : Nat) :
    parseUnsigned cs = some v ↔
      cs ≠ [] ∧ (∀ c ∈ cs, isDigit c = true) ∧ v = decimalValue cs := by
  cases cs with
  | nil =>
    constructor
    · intro h; cases h
    · rintro ⟨h, _⟩; exact absurd rfl h
  | cons c cs =>
    have h : parseUnsigned (c :: cs) = parseDigits 0 (c :: cs) := rfl
    rw [h, parseDigits_eq_some]
    constructor
    · rintro ⟨h1, h2⟩
      exact ⟨List.cons_ne_nil _ _, h1, h2⟩
    · rintro ⟨_, h1, h2⟩
      exact ⟨h1, h2⟩

theorem atoi_minus (s : String) (cs : List Char) (h : s.data = '-' :: cs) :
    Atoi s = match parseUnsigned cs with
      | none => .error .ErrSyntax
      | some n => if (n : Int) ≤ -minInt64 then .ok (-(n : Int)) else .error .ErrRange := by
  unfold Atoi
  rw [h]
  split
  · rename_i heq; cases heq
  · rename_i heq
    cases heq
    rfl
  · rename_i heq
    have := (List.cons.inj heq).1
    exact absurd this (by decide)
  · rename_i hne1 hne2
    exact absurd rfl (hne1 cs)

theorem atoi_plus (s : String) (cs : List Char) (h : s.data = '+' :: cs) :
    Atoi s = match parseUnsigned cs with
      | none => .error .ErrSyntax
      | some n => if (n : Int) ≤ maxInt64 then .ok (n : Int) else .error .ErrRange := by
  unfold Atoi
  rw [h]
  split
  · rename_i heq; cases heq
  · rename_i heq
    have := (List.cons.inj heq).1
    exact absurd this (by decide)
  · rename_i heq
    cases heq
    rfl
  · rename_i hne1 hne2
    exact absurd rfl (hne2 cs)

theorem atoi_plain (s : String) (c : Char) (cs : List Char) (h : s.data = c :: cs)
    (h1 : c ≠ '-') (h2 : c ≠ '+') :
    Atoi s = match parseUnsigned (c :: cs) with
      | none => .error .ErrSyntax
      | some n => if (n : Int) ≤ maxInt64 then .ok (n : Int) else .error .ErrRange := by
  unfold Atoi
  rw [h]
  split
  · rename_i heq; cases heq
  · rename_i heq; cases heq; exact absurd rfl h1
  · rename_i heq; cases heq; exact absurd rfl h2
  · rfl
theorem parseUnsigned_cases (cs : List Char) :
    ((cs ≠ [] ∧ ∀ c ∈ cs, isDigit c = true) ∧ parseUnsigned cs = some (decimalValue cs)) ∨
    (¬ (cs ≠ [] ∧ ∀ c ∈ cs, isDigit c = true) ∧ parseUnsigned cs = none) := by
  cases h : parseUnsigned cs with
  | none =>
    refine Or.inr ⟨?_, rfl⟩
    rintro ⟨h1, h2⟩
    have := (parseUnsigned_eq_some cs (decimalValue cs)).2 ⟨h1, h2, rfl⟩
    rw [h] at this
    cases this
  | some v =>
    have := (parseUnsigned_eq_some cs v).1 h
    refine Or.inl ⟨⟨this.1, this.2.1⟩, ?_⟩
    rw [this.2.2]

theorem sign_not_digit : isDigit '-' = false ∧ isDigit '+' = false := by decide

theorem atoi_ok_iff (s : String) (n : Int) : Atoi s = .ok n ↔ parsesAsInt s n := by
  unfold parsesAsInt
  cases hs : s.data with
  | nil =>
    have h : Atoi s = .error .ErrSyntax := by
      unfold Atoi
      rw [hs]
    rw [h]
    constructor
    · intro h'; cases h'
    · rintro ⟨_, _, digits, hne, _, h' | h' | h'⟩
      · exact absurd h'.1.symm hne
      · cases h'.1
      · cases h'.1
  | cons c cs =>
    by_cases hminus : c = '-'
    · subst hminus
      rw [atoi_minus s cs hs]
      rcases parseUnsigned_cases cs with ⟨hnum, hp⟩ | ⟨hnum, hp⟩
      · rw [hp]
        constructor
        · intro h
          by_cases hr : (decimalValue cs : Int) ≤ -minInt64
          · simp only [hr, if_true] at h
            cases h
            refine ⟨by omega, by unfold maxInt64; omega, cs, hnum.1, hnum.2, Or.inr (Or.inr ⟨rfl, rfl⟩)⟩
          · simp only [hr, if_false] at h
            cases h
        · rintro ⟨hlo, _, digits, hne, hall, h' | h' | h'⟩
          · have := hall '-' (by rw [← h'.1]; exact List.mem_cons_self _ _)
            rw [sign_not_digit.1] at this
            cases this
          · have := (List.cons.inj h'.1).1
            exact absurd this (by decide)
          · have hd : cs = digits := (List.cons.inj h'.1).2
            subst hd
            have hr : (decimalValue cs : Int) ≤ -minInt64 := by rw [h'.2] at hlo; omega
            simp only [hr, if_true, h'.2]
      · rw [hp]
        constructor
        · intro h; cases h
        · rintro ⟨_, _, digits, hne, hall, h' | h' | h'⟩
          · have := hall '-' (by rw [← h'.1]; exact List.mem_cons_self _ _)
            rw [sign_not_digit.1] at this
            cases this
          · have := (List.cons.inj h'.1).1
            exact absurd this (by decide)
          · have hd : cs = digits := (List.cons.inj h'.1).2
            subst hd
            exact absurd ⟨hne, hall⟩ hnum
    · by_cases hplus : c = '+'
      · subst hplus
        rw [atoi_plus s cs hs]
        rcases parseUnsigned_cases cs with ⟨hnum, hp⟩ | ⟨hnum, hp⟩
        · rw [hp]
          constructor
          · intro h
            by_cases hr : (decimalValue cs : Int) ≤ maxInt64
            · simp only [hr, if_true] at h
              cases h
              refine ⟨by unfold minInt64; omega, hr, cs, hnum.1, hnum.2, Or.inr (Or.inl ⟨rfl, rfl⟩)⟩
            · simp only [hr, if_false] at h
              cases h
          · rintro ⟨_, hhi, digits, hne, hall, h' | h' | h'⟩
            · have := hall '+' (by rw [← h'.1]; exact List.mem_cons_self _ _)
              rw [sign_not_digit.2] at this
              cases this
            · have hd : cs = digits := (List.cons.inj h'.1).2
              subst hd
              have hr : (decimalValue cs : Int) ≤ maxInt64 := by rw [h'.2] at hhi; exact hhi
              simp only [hr, if_true, h'.2]
            · have := (List.cons.inj h'.1).1
              exact absurd this (by decide)
        · rw [hp]
          constructor
          · intro h; cases h
          · rintro ⟨_, _, digits, hne, hall, h' | h' | h'⟩
            · have := hall '+' (by rw [← h'.1]; exact List.mem_cons_self _ _)
              rw [sign_not_digit.2] at this
              cases this
            · have hd : cs = digits := (List.cons.inj h'.1).2
              subst hd
              exact absurd ⟨hne, hall⟩ hnum
            · have := (List.cons.inj h'.1).1
              exact absurd this (by decide)
      · rw [atoi_plain s c cs hs hminus hplus]
        rcases parseUnsigned_cases (c :: cs) with ⟨hnum, hp⟩ | ⟨hnum, hp⟩
        · rw [hp]
          constructor
          · intro h
            by_cases hr : (decimalValue (c :: cs) : Int) ≤ maxInt64
            · simp only [hr, if_true] at h
              cases h
              refine ⟨by unfold minInt64; omega, hr, c :: cs, hnum.1, hnum.2, Or.inl ⟨rfl, rfl⟩⟩
            · simp only [hr, if_false] at h
              cases h
          · rintro ⟨_, hhi, digits, hne, hall, h' | h' | h'⟩
            · have hd : c :: cs = digits := h'.1
              subst hd
              have hr : (decimalValue (c :: cs) : Int) ≤ maxInt64 := by rw [h'.2] at hhi; exact hhi
              simp only [hr, if_true, h'.2]
            · exact absurd (List.cons.inj h'.1).1 hplus
            · exact absurd (List.cons.inj h'.1).1 hminus
        · rw [hp]
          constructor
          · intro h; cases h
          · rintro ⟨_, _, digits, hne, hall, h' | h' | h'⟩
            · have hd : c :: cs = digits := h'.1
              subst hd
              exact absurd ⟨hne, hall⟩ hnum
            · exact absurd (List.cons.inj h'.1).1 hplus
            · exact absurd (List.cons.inj h'.1).1 hminus

/-- C6. `getID` succeeds exactly when the path id parses as a base-10
integer of value at least 1, and then returns that value; otherwise it fails
with `invalid ID: ` followed by the id text (so also for a missing or empty
id).  `handleDeleteAccount` returns that error without touching the writer
or calling storage; with a valid id it calls the storage delete once, with
that id, answers 200 with `{"deleted": id}` when storage succeeds and returns
the storage error, writing nothing, when it fails. -/
theorem getID_validates_before_delete {σ : Type} (srv : ApiServer σ) (w : ResponseWriter)
    (r : Request) (s : World σ) :
    (∀ n, getID r = .ok n ↔ (parsesAsInt (r.Var "id") n ∧ 1 ≤ n)) ∧
    ((¬ ∃ n, parsesAsInt (r.Var "id") n ∧ 1 ≤ n) →
      getID r = .error ("invalid ID: " ++ r.Var "id")) ∧
    (r.Var "id" = "" → getID r = .error "invalid ID: ") ∧
    (∀ e, getID r = .error e →
      handleDeleteAccount srv w r s = { writer := w, world := s, err := some e }) ∧
    (∀ id, getID r = .ok id →
      (handleDeleteAccount srv w r s).world = (World.DeleteAccount srv.database id s).2 ∧
      (handleDeleteAccount srv w r s).world.trace = s.trace ++ [.DeleteAccount id] ∧
      ((srv.database.DeleteAccount id s.store).1 = none →
        (handleDeleteAccount srv w r s).err = none ∧
        (handleDeleteAccount srv w r s).writer
          = (WriteJSON w StatusOK (.obj [("deleted", .int id)])).1 ∧
        (handleDeleteAccount srv .fresh r s).writer.status = some 200 ∧
        (handleDeleteAccount srv .fresh r s).writer.body = [.obj [("deleted", .int id)]]) ∧
      (∀ e, (srv.database.DeleteAccount id s.store).1 = some e →
        (handleDeleteAccount srv w r s).err = some e ∧
        (handleDeleteAccount srv w r s).writer = w)) := by
  have hiff : ∀ n, getID r = .ok n ↔ (parsesAsInt (r.Var "id") n ∧ 1 ≤ n) := by
    intro n
    rw [getID_ok_iff, atoi_ok_iff]
  have herr : (¬ ∃ n, parsesAsInt (r.Var "id") n ∧ 1 ≤ n) →
      getID r = .error ("invalid ID: " ++ r.Var "id") := by
    intro hno
    cases hg : getID r with
    | ok n => exact absurd ⟨n, (hiff n).1 hg⟩ hno
    | error e => rw [getID_error r e hg]
  refine ⟨hiff, herr, ?_, ?_, ?_⟩
  · intro hempty
    have := getID_of_atoi_error r .ErrSyntax (by rw [hempty]; exact atoi_empty)
    rw [this, hempty]
    rfl
  · intro e he
    simp only [handleDeleteAccount, he]
  · intro id hid
    have hdel : ∀ w', handleDeleteAccount srv w' r s =
        match World.DeleteAccount srv.database id s with
        | (some err, world1) => { writer := w', world := world1, err := some err }
        | (none, world1) =>
          { writer := (WriteJSON w' StatusOK (.obj [("deleted", .int id)])).1
            world := world1
            err := (WriteJSON w' StatusOK (.obj [("deleted", .int id)])).2 } := by
      intro w'
      simp only [handleDeleteAccount, hid]
    cases hd : (srv.database.DeleteAccount id s.store).1 with
    | none =>
      have hrun : ∀ w', handleDeleteAccount srv w' r s =
          { writer := (WriteJSON w' StatusOK (.obj [("deleted", .int id)])).1
            world := (World.DeleteAccount srv.database id s).2
            err := none } := by
        intro w'
        rw [hdel w']
        simp only [World.DeleteAccount, hd]
        rfl
      refine ⟨by rw [hrun], by rw [hrun]; rfl, fun _ => ⟨by rw [hrun], by rw [hrun],
        by rw [hrun]; rfl, by rw [hrun]; rfl⟩, fun e he => (by cases he)⟩
    | some e =>
      have hrun : ∀ w', handleDeleteAccount srv w' r s =
          { writer := w', world := (World.DeleteAccount srv.database id s).2, err := some e } := by
        intro w'
        rw [hdel w']
        simp only [World.DeleteAccount, hd]
      refine ⟨by rw [hrun], by rw [hrun]; rfl, fun h => (by cases h), fun e' he' => ?_⟩
      cases he'
      exact ⟨by rw [hrun], by rw [hrun]⟩

/-! ## C8: creating an account -/

/-- C8. For a decodable create request, the account handed to the storage
`CreateAccount` has the three decoded field values, `Balance = 0` and
`ID = 0`; the token is issued before storage is called and goes to standard
output, not into the response; when storage succeeds the response is 200 and
its body is the one JSON object holding the six fields of the account
storage returned (`id`, `first_name`, `last_name`, `number`, `balance`,
`created_at`) and nothing else, also through the registered route on POST;
when decoding, token issuance or storage fails the handler returns that error
and writes nothing.  A JSON object with the three keys decodes to the request
with those values. -/
theorem create_account_builds_unassigned_zero_balance {σ : Type} (env : Env)
    (srv : ApiServer σ) (w : ResponseWriter) (r : Request) (s : World σ) :
    (∀ f l n : String,
      decodeCreateAccountRequest
          (.obj [("first_name", .str f), ("last_name", .str l), ("number", .str n)])
        = .ok { FirstName := f, LastName := l, Number := n }) ∧
    (∀ e, r.Body.bind decodeCreateAccountRequest = .error e →
      handleCreateAccount env srv w r s = { writer := w, world := s, err := some e }) ∧
    (∀ req account, r.Body.bind decodeCreateAccountRequest = .ok req →
      account = { ID := 0, FirstName := req.FirstName, LastName := req.LastName,
                  Number := req.Number, Balance := 0, CreatedAt := env.now } →
      (∀ e, createJWTToken env account = .error e →
        handleCreateAccount env srv w r s = { writer := w, world := s, err := some e }) ∧
      (∀ ts, createJWTToken env account = .ok ts →
        (handleCreateAccount env srv w r s).world.trace = s.trace ++ [.CreateAccount account] ∧
        (handleCreateAccount env srv w r s).world.stdout = s.stdout ++ [ts] ∧
        (handleCreateAccount env srv w r s).world.store
          = (srv.database.CreateAccount account s.store).2 ∧
        (∀ inserted, (srv.database.CreateAccount account s.store).1 = .ok inserted →
          (handleCreateAccount env srv w r s).err = none ∧
          (handleCreateAccount env srv w r s).writer
            = (WriteJSON w StatusOK
                (.obj [("id", .int inserted.ID), ("first_name", .str inserted.FirstName),
                  ("last_name", .str inserted.LastName), ("number", .str inserted.Number),
                  ("balance", .int inserted.Balance),
                  ("created_at", .str (env.formatTime inserted.CreatedAt))])).1 ∧
          (handleCreateAccount env srv .fresh r s).writer.status = some 200 ∧
          (handleCreateAccount env srv .fresh r s).writer.header
            = [("Content-Type", "application/json")] ∧
          (handleCreateAccount env srv .fresh r s).writer.body
            = [.obj [("id", .int inserted.ID), ("first_name", .str inserted.FirstName),
                ("last_name", .str inserted.LastName), ("number", .str inserted.Number),
                ("balance", .int inserted.Balance),
                ("created_at", .str (env.formatTime inserted.CreatedAt))]] ∧
          (accountRoute env srv .fresh { r with Method := MethodPost } s).1.status = some 200 ∧
          (accountRoute env srv .fresh { r with Method := MethodPost } s).1.body
            = [.obj [("id", .int inserted.ID), ("first_name", .str inserted.FirstName),
                ("last_name", .str inserted.LastName), ("number", .str inserted.Number),
                ("balance", .int inserted.Balance),
                ("created_at", .str (env.formatTime inserted.CreatedAt))]]) ∧
        (∀ e, (srv.database.CreateAccount account s.store).1 = .error e →
          (handleCreateAccount env srv w r s).err = some e ∧
          (handleCreateAccount env srv w r s).writer = w))) := by
  refine ⟨fun f l n => rfl, ?_, ?_⟩
  · intro e he
    simp only [handleCreateAccount, he]
  · intro req account hreq hacc
    have hnew : NewAccount env.now req.FirstName req.LastName req.Number = account := by
      rw [hacc]; rfl
    constructor
    · intro e he
      simp only [handleCreateAccount, hreq, hnew, he]
    · intro ts hts
      cases hc : (srv.database.CreateAccount account s.store).1 with
      | error e =>
        have hrun : ∀ w', handleCreateAccount env srv w' r s =
            { writer := w'
              world := (World.CreateAccount srv.database account (World.Println ts s)).2
              err := some e } := by
          intro w'
          simp only [handleCreateAccount, hreq, hnew, hts, World.CreateAccount, World.Println, hc]
        refine ⟨by rw [hrun]; rfl, by rw [hrun]; rfl, by rw [hrun]; rfl,
          fun inserted h => (by cases h), fun e' he' => ?_⟩
        cases he'
        exact ⟨by rw [hrun], by rw [hrun]⟩
      | ok inserted =>
        have hrun : ∀ w', handleCreateAccount env srv w' r s =
            { writer := (WriteJSON w' StatusOK (Account.toJSON env.formatTime inserted)).1
              world := (World.CreateAccount srv.database account (World.Println ts s)).2
              err := none } := by
          intro w'
          simp only [handleCreateAccount, hreq, hnew, hts, World.CreateAccount, World.Println, hc]
          rfl
        have hpost : ∀ w', handleAccount env srv w' { r with Method := MethodPost } s
            = handleCreateAccount env srv w' r s := by
          intro w'
          have h1 : ¬ (MethodPost = MethodGet) := by decide
          simp only [handleAccount, h1, if_false, if_true]
          rfl
        have hroute : ∀ w', accountRoute env srv w' { r with Method := MethodPost } s
            = ((WriteJSON w' StatusOK (Account.toJSON env.formatTime inserted)).1,
                (World.CreateAccount srv.database account (World.Println ts s)).2) := by
          intro w'
          simp only [accountRoute, makeHttpHandleFunc, hpost, hrun]
        refine ⟨by rw [hrun]; rfl, by rw [hrun]; rfl, by rw [hrun]; rfl,
          fun inserted' h => ?_, fun e h => (by cases h)⟩
        cases h
        exact ⟨by rw [hrun], by rw [hrun]; rfl, by rw [hrun]; rfl, by rw [hrun]; rfl,
          by rw [hrun]; rfl, by rw [hroute]; rfl, by rw [hroute]; rfl⟩

/-- Witness of C8: a create request for number 552122 on a table holding only
account 2.  Storage receives the account with `ID = 0` and `Balance = 0`,
assigns id 3, and the 200 response is the stored account; the token is
printed, not returned. -/
theorem create_account_builds_unassigned_zero_balance_witness :
    unassignedAlice.ID = 0 ∧ unassignedAlice.Balance = 0 ∧
    (handleCreateAccount (stubEnv 100000000000) tableServer .fresh createAliceRequest
      (worldOf bobOnly)).world.trace = [.CreateAccount unassignedAlice] ∧
    (handleCreateAccount (stubEnv 100000000000) tableServer .fresh createAliceRequest
      (worldOf bobOnly)).world.stdout = ["tok-552122"] ∧
    (handleCreateAccount (stubEnv 100000000000) tableServer .fresh createAliceRequest
      (worldOf bobOnly)).writer.status = some 200 ∧
    (handleCreateAccount (stubEnv 100000000000) tableServer .fresh createAliceRequest
      (worldOf bobOnly)).writer.body
      = [.obj [("id", .int 3), ("first_name", .str "Alice"), ("last_name", .str "A"),
          ("number", .str "552122"), ("balance", .int 0),
          ("created_at", .str "100000000000")]] ∧
    (handleCreateAccount (stubEnv 100000000000) tableServer .fresh createAliceRequest
      (worldOf bobOnly)).world.store.rows = [bob, { unassignedAlice with ID := 3 }] :=
  have h := ((create_account_builds_unassigned_zero_balance (stubEnv 100000000000) tableServer
      .fresh createAliceRequest (worldOf bobOnly)).2.2
      { FirstName := "Alice", LastName := "A", Number := "552122" } unassignedAlice
      rfl rfl).2 "tok-552122" rfl
  ⟨rfl, rfl, h.1, h.2.1,
    (h.2.2.2.1 { unassignedAlice with ID := 3 } rfl).2.2.1,
    (h.2.2.2.1 { unassignedAlice with ID := 3 } rfl).2.2.2.2.1,
    rfl⟩

/-! ## C9: the transfer echo -/

theorem char_range (c : Char) :
    c.toNat < 0xD800 ∨ (0xDFFF < c.toNat ∧ c.toNat < 0x110000) := by
  have h := c.valid
  simp only [UInt32.isValidChar, Nat.isValidChar] at h
  exact h

theorem byte_val (n : Nat) : (byte n).val = n % 256 := rfl

theorem DecodeRune_two (b0 b1 : Byte) (rest : List Byte) (h0 : 0xC2 ≤ b0.val)
    (h0' : b0.val < 0xE0) (h1 : 0x80 ≤ b1.val) (h1' : b1.val ≤ 0xBF) :
    DecodeRune (b0 :: b1 :: rest)
      = some (Char.ofNat ((b0.val - 0xC0) * 64 + (b1.val - 0x80)), rest) := by
  have e1 : ¬ b0.val < 0x80 := by omega
  have e2 : ¬ b0.val < 0xC2 := by omega
  have e3 : ¬ b0.val = 0xE0 := by omega
  have e4 : ¬ b0.val = 0xF0 := by omega
  have e5 : ¬ b0.val = 0xED := by omega
  have e6 : ¬ b0.val = 0xF4 := by omega
  simp only [DecodeRune, secondLow, secondHigh, e1, e2, e3, e4, e5, e6, if_false, h1, h1', h0',
    decide_True, Bool.and_self, if_true]

theorem DecodeRune_three (b0 b1 b2 : Byte) (rest : List Byte) (h0 : 0xE0 ≤ b0.val)
    (h0' : b0.val < 0xF0) (h1 : secondLow b0 ≤ b1.val) (h1' : b1.val ≤ secondHigh b0)
    (h2 : 0x80 ≤ b2.val) (h2' : b2.val ≤ 0xBF) :
    DecodeRune (b0 :: b1 :: b2 :: rest)
      = some (Char.ofNat ((b0.val - 0xE0) * 4096 + (b1.val - 0x80) * 64 + (b2.val - 0x80)),
          rest) := by
  have e1 : ¬ b0.val < 0x80 := by omega
  have e2 : ¬ b0.val < 0xC2 := by omega
  have e3 : ¬ b0.val < 0xE0 := by omega
  simp only [DecodeRune, e1, e2, e3, if_false, h1, h1', h0', h2, h2', isCont,
    decide_True, Bool.and_self, if_true]

theorem DecodeRune_four (b0 b1 b2 b3 : Byte) (rest : List Byte) (h0 : 0xF0 ≤ b0.val)
    (h0' : b0.val < 0xF5) (h1 : secondLow b0 ≤ b1.val) (h1' : b1.val ≤ secondHigh b0)
    (h2 : 0x80 ≤ b2.val) (h2' : b2.val ≤ 0xBF) (h3 : 0x80 ≤ b3.val) (h3' : b3.val ≤ 0xBF) :
    DecodeRune (b0 :: b1 :: b2 :: b3 :: rest)
      = some (Char.ofNat ((b0.val - 0xF0) * 262144 + (b1.val - 0x80) * 4096
          + (b2.val - 0x80) * 64 + (b3.val - 0x80)), rest) := by
  have e1 : ¬ b0.val < 0x80 := by omega
  have e2 : ¬ b0.val < 0xC2 := by omega
  have e3 : ¬ b0.val < 0xE0 := by omega
  have e4 : ¬ b0.val < 0xF0 := by omega
  simp only [DecodeRune, e1, e2, e3, e4, if_false, h1, h1', h0', h2, h2', h3, h3', isCont,
    decide_True, Bool.and_self, if_true]

theorem DecodeRune_encode (c : Char) (rest : List Byte) :
    DecodeRune (utf8EncodeRune c ++ rest) = some (c, rest) := by
  have hr := char_range c
  unfold utf8EncodeRune
  by_cases h1 : c.toNat < 0x80
  · simp only [h1, if_true, List.singleton_append, DecodeRune, byte_val]
    have : c.toNat % 256 = c.toNat := by omega
    simp [this, h1]
  · by_cases h2 : c.toNat < 0x800
    · simp only [h1, h2, if_true, if_false, List.cons_append, List.nil_append]
      rw [DecodeRune_two _ _ _ (by rw [byte_val]; omega) (by rw [byte_val]; omega)
        (by rw [byte_val]; omega) (by rw [byte_val]; omega)]
      have hv : ((byte (0xC0 + c.toNat / 64)).val - 0xC0) * 64
          + ((byte (0x80 + c.toNat % 64)).val - 0x80) = c.toNat := by
        simp only [byte_val]; omega
      rw [hv, Char.ofNat_toNat]
    · by_cases h3 : c.toNat < 0x10000
      · simp only [h1, h2, h3, if_true, if_false, List.cons_append, List.nil_append]
        rw [DecodeRune_three _ _ _ _ (by rw [byte_val]; omega) (by rw [byte_val]; omega)
          (by simp only [secondLow, byte_val]; split <;> [omega; (split <;> omega)])
          (by simp only [secondHigh, byte_val]; split <;> [omega; (split <;> omega)])
          (by rw [byte_val]; omega) (by rw [byte_val]; omega)]
        have hv : ((byte (0xE0 + c.toNat / 4096)).val - 0xE0) * 4096
            + ((byte (0x80 + c.toNat / 64 % 64)).val - 0x80) * 64
            + ((byte (0x80 + c.toNat % 64)).val - 0x80) = c.toNat := by
          simp only [byte_val]; omega
        rw [hv, Char.ofNat_toNat]
      · simp only [h1, h2, h3, if_false, List.cons_append, List.nil_append]
        rw [DecodeRune_four _ _ _ _ _ (by rw [byte_val]; omega) (by rw [byte_val]; omega)
          (by simp only [secondLow, byte_val]; split <;> [omega; (split <;> omega)])
          (by simp only [secondHigh, byte_val]; split <;> [omega; (split <;> omega)])
          (by rw [byte_val]; omega) (by rw [byte_val]; omega)
          (by rw [byte_val]; omega) (by rw [byte_val]; omega)]
        have hv : ((byte (0xF0 + c.toNat / 262144)).val - 0xF0) * 262144
            + ((byte (0x80 + c.toNat / 4096 % 64)).val - 0x80) * 4096
            + ((byte (0x80 + c.toNat / 64 % 64)).val - 0x80) * 64
            + ((byte (0x80 + c.toNat % 64)).val - 0x80) = c.toNat := by
          simp only [byte_val]; omega
        rw [hv, Char.ofNat_toNat]

theorem utf8EncodeRune_length_pos (c : Char) : 0 < (utf8EncodeRune c).length := by
  unfold utf8EncodeRune
  split
  · simp
  · split
    · simp
    · split <;> simp

theorem jsonTextAux_encode (cs : List Char) : ∀ fuel, (utf8EncodeAll cs).length ≤ fuel →
    jsonTextAux fuel (utf8EncodeAll cs) = cs := by
  induction cs with
  | nil =>
    intro fuel _
    cases fuel <;> rfl
  | cons c cs ih =>
    intro fuel hfuel
    have hpos := utf8EncodeRune_length_pos c
    simp only [utf8EncodeAll, List.length_append] at hfuel
    cases fuel with
    | zero => omega
    | succ fuel =>
      have hdec := DecodeRune_encode c (utf8EncodeAll cs)
      cases hb : utf8EncodeRune c ++ utf8EncodeAll cs with
      | nil =>
        have := congrArg List.length hb
        simp only [List.length_append, List.length_nil] at this
        omega
      | cons b bs =>
        rw [hb] at hdec
        simp only [utf8EncodeAll, hb, jsonTextAux, hdec]
        rw [ih fuel (by omega)]

theorem jsonText_ofText (s : String) : GoString.jsonText (GoString.ofText s) = s := by
  unfold GoString.jsonText GoString.ofText
  rw [jsonTextAux_encode s.data _ (Nat.le_refl _)]
/-- Decoding the encoding of a `TransferRequest` gives the request whose
strings are the UTF-8 bytes of the texts written for them. -/
theorem decode_encode_transfer (t : TransferRequest) :
    decodeTransferRequest t.toJSON
      = .ok t.replaceInvalid := by
  have hto : matchesField "to" "to" = true := by decide
  have hamt1 : matchesField "amount" "to" = false := by decide
  have hamt2 : matchesField "amount" "amount" = true := by decide
  have hnote1 : matchesField "note" "to" = false := by decide
  have hnote2 : matchesField "note" "amount" = false := by decide
  have hnote3 : matchesField "note" "note" = true := by decide
  obtain ⟨dest, ⟨amount, hrange⟩, note⟩ := t
  simp only [decodeTransferRequest, TransferRequest.toJSON, List.foldl, TransferRequest.setField,
    hto, hamt1, hamt2, hnote1, hnote2, hnote3, if_true, setGoString, setInt64, hrange,
    TransferRequest.zero, Bool.false_eq_true, if_false, dif_pos, and_self,
    TransferRequest.replaceInvalid]
  rfl

theorem handleTransfer_world {σ : Type} (srv : ApiServer σ) (w : ResponseWriter) (r : Request)
    (s : World σ) : (handleTransfer srv w r s).world = s := by
  unfold handleTransfer
  cases r.Body.bind decodeTransferRequest <;> rfl

theorem handleTransfer_encoded {σ : Type} (srv : ApiServer σ) (w : ResponseWriter)
    (method : String) (header : List (String × List String)) (vars : List (String × String))
    (t : TransferRequest) (s : World σ) :
    handleTransfer srv w
        { Method := method, Header := header, Vars := vars, Body := .ok t.toJSON } s
      = { writer := (WriteJSON w StatusOK
            t.replaceInvalid.toJSON).1
          world := s
          err := none } := by
  have hb : (Except.ok t.toJSON : Except GoError JSON).bind decodeTransferRequest
      = .ok t.replaceInvalid :=
    decode_encode_transfer t
  simp only [handleTransfer, hb]
  rfl

/-- C9, as the code behaves: for the `TransferRequest` whose `to` is the
single byte `0xFF`, the echoed body decodes to a request whose `to` is the
three bytes of U+FFFD, not the byte sent. -/
theorem transfer_echo_replaces_invalid_bytes :
    (transferRoute tableServer .fresh
      { Method := "POST", Header := [], Vars := [],
        Body := .ok (TransferRequest.toJSON
          { To := [byte 0xFF], Amount := ⟨5, by decide⟩, Note := [] }) }
      (worldOf twoAccounts)).1.status = some 200 ∧
    (transferRoute tableServer .fresh
      { Method := "POST", Header := [], Vars := [],
        Body := .ok (TransferRequest.toJSON
          { To := [byte 0xFF], Amount := ⟨5, by decide⟩, Note := [] }) }
      (worldOf twoAccounts)).1.body
      = [.obj [("to", .str ⟨[Char.ofNat 0xFFFD]⟩), ("amount", .int 5), ("note", .str "")]] ∧
    decodeTransferRequest
        (.obj [("to", .str ⟨[Char.ofNat 0xFFFD]⟩), ("amount", .int 5), ("note", .str "")])
      = .ok { To := [byte 0xEF, byte 0xBF, byte 0xBD], Amount := ⟨5, by decide⟩, Note := [] } ∧
    ({ To := [byte 0xEF, byte 0xBF, byte 0xBD], Amount := ⟨5, by decide⟩, Note := [] }
        : TransferRequest)
      ≠ { To := [byte 0xFF], Amount := ⟨5, by decide⟩, Note := [] } :=
  ⟨rfl, rfl, rfl, by decide⟩

/-- C9 amended. For every `TransferRequest` whose `to` and `note` are the
UTF-8 bytes of texts `dest` and `note`, and every `int64` amount, a request
whose body is the JSON encoding of it gets from `handleTransfer` a 200
response whose body is the one document
`{"to": dest, "amount": amount, "note": note}`, which decodes to a request
with identical fields.  For every `TransferRequest` at all the body decodes
to the request with each byte outside a valid UTF-8 sequence replaced by
U+FFFD.  On every request `handleTransfer` leaves the world as it was: no
`Database` method is called and nothing stored changes. -/
theorem transfer_echoes_text {σ : Type} (srv : ApiServer σ) (w : ResponseWriter)
    (method : String) (header : List (String × List String)) (vars : List (String × String))
    (dest note : String) (amount : { n : Int // minInt64 ≤ n ∧ n ≤ maxInt64 }) (s : World σ) :
    (TransferRequest.toJSON
        { To := GoString.ofText dest, Amount := amount, Note := GoString.ofText note }
      = .obj [("to", .str dest), ("amount", .int amount.1), ("note", .str note)]) ∧
    (transferRoute srv w
        { Method := method, Header := header, Vars := vars,
          Body := .ok (.obj [("to", .str dest), ("amount", .int amount.1), ("note", .str note)]) }
        s).1
      = (WriteJSON w StatusOK
          (.obj [("to", .str dest), ("amount", .int amount.1), ("note", .str note)])).1 ∧
    (transferRoute srv .fresh
        { Method := method, Header := header, Vars := vars,
          Body := .ok (.obj [("to", .str dest), ("amount", .int amount.1), ("note", .str note)]) }
        s).1.status = some 200 ∧
    (transferRoute srv .fresh
        { Method := method, Header := header, Vars := vars,
          Body := .ok (.obj [("to", .str dest), ("amount", .int amount.1), ("note", .str note)]) }
        s).1.body
      = [.obj [("to", .str dest), ("amount", .int amount.1), ("note", .str note)]] ∧
    decodeTransferRequest
        (.obj [("to", .str dest), ("amount", .int amount.1), ("note", .str note)])
      = .ok { To := GoString.ofText dest, Amount := amount, Note := GoString.ofText note } ∧
    (∀ t : TransferRequest,
      ∃ doc, (transferRoute srv .fresh
          { Method := method, Header := header, Vars := vars, Body := .ok t.toJSON } s).1.body
          = [doc] ∧
        decodeTransferRequest doc
          = .ok t.replaceInvalid) ∧
    (∀ (w' : ResponseWriter) (r : Request),
      (handleTransfer srv w' r s).world = s ∧ (transferRoute srv w' r s).2 = s) := by
  have henc : TransferRequest.toJSON
        { To := GoString.ofText dest, Amount := amount, Note := GoString.ofText note }
      = .obj [("to", .str dest), ("amount", .int amount.1), ("note", .str note)] := by
    simp only [TransferRequest.toJSON, jsonText_ofText]
  have hdec : decodeTransferRequest
        (.obj [("to", .str dest), ("amount", .int amount.1), ("note", .str note)])
      = .ok { To := GoString.ofText dest, Amount := amount, Note := GoString.ofText note } := by
    rw [← henc, decode_encode_transfer]
    simp only [TransferRequest.replaceInvalid, jsonText_ofText]
  have hroute : ∀ (w' : ResponseWriter) (t : TransferRequest), (transferRoute srv w'
        { Method := method, Header := header, Vars := vars, Body := .ok t.toJSON } s).1
      = (WriteJSON w' StatusOK
          t.replaceInvalid.toJSON).1 := by
    intro w' t
    simp only [transferRoute, makeHttpHandleFunc, handleTransfer_encoded]
  have htext : ∀ w' : ResponseWriter, (transferRoute srv w'
        { Method := method, Header := header, Vars := vars,
          Body := .ok (.obj [("to", .str dest), ("amount", .int amount.1), ("note", .str note)]) }
        s).1
      = (WriteJSON w' StatusOK
          (.obj [("to", .str dest), ("amount", .int amount.1), ("note", .str note)])).1 := by
    intro w'
    have := hroute w' { To := GoString.ofText dest, Amount := amount, Note := GoString.ofText note }
    simp only [TransferRequest.replaceInvalid, jsonText_ofText] at this
    rw [henc] at this
    exact this
  refine ⟨henc, htext w, by rw [htext]; rfl, by rw [htext]; rfl, hdec, ?_, ?_⟩
  · intro t
    refine ⟨_, by rw [hroute]; rfl, ?_⟩
    rw [decode_encode_transfer]
    simp only [TransferRequest.replaceInvalid, jsonText_ofText]
  · intro w' r
    refine ⟨handleTransfer_world srv w' r s, ?_⟩
    simp only [transferRoute, makeHttpHandleFunc]
    cases (handleTransfer srv w' r s).err <;> exact handleTransfer_world srv w' r s

/-- Witness of C9 amended: the request `{"to":"héllo","amount":-7,"note":"€"}`
is echoed with identical fields and no `Database` call. -/
theorem transfer_echoes_text_witness :
    (transferRoute tableServer .fresh
      { Method := "POST", Header := [], Vars := [],
        Body := .ok (.obj [("to", .str "héllo"), ("amount", .int (-7)), ("note", .str "€")]) }
      (worldOf twoAccounts)).1.body
      = [.obj [("to", .str "héllo"), ("amount", .int (-7)), ("note", .str "€")]] ∧
    decodeTransferRequest (.obj [("to", .str "héllo"), ("amount", .int (-7)), ("note", .str "€")])
      = .ok { To := GoString.ofText "héllo", Amount := ⟨-7, by decide⟩,
              Note := GoString.ofText "€" } ∧
    (transferRoute tableServer .fresh
      { Method := "POST", Header := [], Vars := [],
        Body := .ok (.obj [("to", .str "héllo"), ("amount", .int (-7)), ("note", .str "€")]) }
      (worldOf twoAccounts)).2 = worldOf twoAccounts :=
  ⟨(transfer_echoes_text tableServer .fresh "POST" [] [] "héllo" "€" ⟨-7, by decide⟩
      (worldOf twoAccounts)).2.2.2.1,
    (transfer_echoes_text tableServer .fresh "POST" [] [] "héllo" "€" ⟨-7, by decide⟩
      (worldOf twoAccounts)).2.2.2.2.1,
    ((transfer_echoes_text tableServer .fresh "POST" [] [] "héllo" "€" ⟨-7, by decide⟩
      (worldOf twoAccounts)).2.2.2.2.2.2 .fresh _).2⟩

/-! ## C10: the id authorised is the id acted on -/

theorem makeHttpHandleFunc_world {σ : Type} (f : apiFunc σ) (w : ResponseWriter) (r : Request)
    (s : World σ) : (makeHttpHandleFunc f w r s).2 = (f w r s).world := by
  unfold makeHttpHandleFunc
  cases (f w r s).err <;> rfl

theorem makeHttpHandleFunc_writer_of_ok {σ : Type} (f : apiFunc σ) (w : ResponseWriter)
    (r : Request) (s : World σ) (h : (f w r s).err = none) :
    (makeHttpHandleFunc f w r s).1 = (f w r s).writer := by
  unfold makeHttpHandleFunc
  rw [h]

theorem handleDeleteAccount_world {σ : Type} (srv : ApiServer σ) (w : ResponseWriter)
    (r : Request) (s : World σ) (id : Int) (hid : getID r = .ok id) :
    (handleDeleteAccount srv w r s).world = (World.DeleteAccount srv.database id s).2 := by
  simp only [handleDeleteAccount, hid, World.DeleteAccount]
  cases (srv.database.DeleteAccount id s.store).1 <;> rfl

theorem handleGetAccountByID_get_world {σ : Type} (env : Env) (srv : ApiServer σ)
    (w : ResponseWriter) (r : Request) (s : World σ) (id : Int) (hid : getID r = .ok id)
    (hm : r.Method = MethodGet) :
    (handleGetAccountByID env srv w r s).world = (World.GetAccountByID srv.database id s).2 := by
  simp only [handleGetAccountByID, hm, if_true, hid, World.GetAccountByID]
  cases (srv.database.GetAccountByID id s.store).1 <;> rfl

theorem handleGetAccountByID_delete {σ : Type} (env : Env) (srv : ApiServer σ)
    (w : ResponseWriter) (r : Request) (s : World σ) (hm : r.Method = MethodDelete) :
    handleGetAccountByID env srv w r s = handleDeleteAccount srv w r s := by
  have h1 : ¬ (MethodDelete = MethodGet) := by decide
  simp only [handleGetAccountByID, hm, h1, if_true, if_false]

theorem handleGetAccountByID_other {σ : Type} (env : Env) (srv : ApiServer σ)
    (w : ResponseWriter) (r : Request) (s : World σ) (h1 : r.Method ≠ MethodGet)
    (h2 : r.Method ≠ MethodDelete) :
    handleGetAccountByID env srv w r s =
      { writer := (WriteJSON (w.HeaderSet "Allow" "GET, DELETE") StatusMethodNotAllowed
          (methodNotAllowed r.Method)).1
        world := s
        err := none } := by
  simp only [handleGetAccountByID, h1, h2, if_false]
  rfl

/-- C10. On a request that passes the middleware, the protected handler acts
on the id the middleware looked up: the `Database` calls of the route are the
middleware's `GetAccountByID id` followed, on GET, by the handler's
`GetAccountByID id` and, on DELETE, by `DeleteAccount id`, with the same
`id`, whose account carries the number the token claims.  For any other
method the handler calls no `Database` method and answers 405. -/
theorem authorised_id_is_acted_on {σ : Type} (env : Env) (srv : ApiServer σ)
    (w : ResponseWriter) (r : Request) (s : World σ)
    (hpass : authChecksPass env srv.database r s) :
    ∃ (id : Int) (account : Account) (token : Token),
      getID r = .ok id ∧
      verifyToken env (r.HeaderGet "jwt-token") = .ok token ∧
      (srv.database.GetAccountByID id s.store).1 = .ok account ∧
      token.Claims.get "accountNumber" = some (.str account.Number) ∧
      (r.Method = MethodGet →
        (accountIDRoute env srv w r s).2.trace
          = s.trace ++ [.GetAccountByID id, .GetAccountByID id]) ∧
      (r.Method = MethodDelete →
        (accountIDRoute env srv w r s).2.trace
          = s.trace ++ [.GetAccountByID id, .DeleteAccount id]) ∧
      (r.Method ≠ MethodGet → r.Method ≠ MethodDelete →
        (accountIDRoute env srv w r s).2.trace = s.trace ++ [.GetAccountByID id] ∧
        (accountIDRoute env srv .fresh r s).1.status = some 405 ∧
        ∀ (w' : ResponseWriter) (s' : World σ),
          (handleGetAccountByID env srv w' r s').world = s') := by
  obtain ⟨token, id, account, hv, hat, hpos, hl, hc⟩ := hpass
  have hid : getID r = .ok id := (getID_ok_iff r id).2 ⟨hat, hpos⟩
  have hroute : ∀ w', accountIDRoute env srv w' r s
      = makeHttpHandleFunc (handleGetAccountByID env srv) w' r
          (World.GetAccountByID srv.database id s).2 := by
    intro w'
    rcases withJWTAuth_cases env srv.database w' r s with ⟨_, id', hid', hrun⟩ | ⟨hn, _⟩
    · rw [hid] at hid'
      cases hid'
      exact hrun _
    · exact absurd ⟨token, id, account, hv, hat, hpos, hl, hc⟩ hn
  refine ⟨id, account, token, hid, hv, hl, hc, ?_, ?_, ?_⟩
  · intro hm
    rw [hroute, makeHttpHandleFunc_world, handleGetAccountByID_get_world env srv w r _ id hid hm]
    simp [World.GetAccountByID]
  · intro hm
    rw [hroute, makeHttpHandleFunc_world, handleGetAccountByID_delete env srv w r _ hm,
      handleDeleteAccount_world srv w r _ id hid]
    simp [World.GetAccountByID, World.DeleteAccount]
  · intro h1 h2
    refine ⟨?_, ?_, ?_⟩
    · rw [hroute, makeHttpHandleFunc_world, handleGetAccountByID_other env srv w r _ h1 h2]
      rfl
    · rw [hroute, makeHttpHandleFunc_writer_of_ok _ _ _ _
        (by rw [handleGetAccountByID_other env srv _ r _ h1 h2]),
        handleGetAccountByID_other env srv _ r _ h1 h2]
      rfl
    · intro w' s'
      rw [handleGetAccountByID_other env srv w' r s' h1 h2]

/-- The valid token of account 1 on the route of account 1 passes the checks. -/
theorem own_token_passes (method : String) :
    authChecksPass (stubEnv 100000000000) tableDB (requestFor method "tok-552122" "1")
      (worldOf twoAccounts) :=
  ⟨{ Claims := stubClaims, Valid := true }, 1, alice, rfl, rfl, by decide, rfl, rfl⟩

/-- Witness of C10: account 1 deleting itself with its own token; the route
looks up id 1 and deletes id 1. -/
theorem authorised_id_is_acted_on_witness :
    authChecksPass (stubEnv 100000000000) tableDB (requestFor "DELETE" "tok-552122" "1")
      (worldOf twoAccounts) ∧
    (accountIDRoute (stubEnv 100000000000) tableServer .fresh
      (requestFor "DELETE" "tok-552122" "1") (worldOf twoAccounts)).2.trace
      = [.GetAccountByID 1, .DeleteAccount 1] ∧
    ∃ (id : Int) (account : Account) (token : Token),
      getID (requestFor "DELETE" "tok-552122" "1") = .ok id ∧
      verifyToken (stubEnv 100000000000)
        ((requestFor "DELETE" "tok-552122" "1").HeaderGet "jwt-token") = .ok token ∧
      (tableServer.database.GetAccountByID id (worldOf twoAccounts).store).1 = .ok account ∧
      token.Claims.get "accountNumber" = some (.str account.Number) :=
  ⟨own_token_passes "DELETE", rfl,
    match authorised_id_is_acted_on (stubEnv 100000000000) tableServer .fresh
      (requestFor "DELETE" "tok-552122" "1") (worldOf twoAccounts) (own_token_passes "DELETE") with
    | ⟨id, account, token, h1, h2, h3, h4, _⟩ => ⟨id, account, token, h1, h2, h3, h4⟩⟩

end GoBank
